import Mathlib

/-!
Verification of the data-access core of the `nextjs-creashcourse` repository:

* `src/lib/mongodb.ts` — the connection cache (`connectToDatabase`), embedded
  as a small-step transition system over an explicit state machine, with the
  module-level `MONGODB_URI` check embedded as `initModule`.
* `src/database/event.model.ts` — `slugify`, `normalizeTime`, and the
  `eventSchema.pre('save')` pipeline, embedded as pure functions on an
  `EventDoc` record.  JavaScript built-ins used by that code (`String.trim`,
  `String.toLowerCase`, `new Date`, `Date.toISOString`, `padStart`, regular
  expressions) are embedded on an ASCII fragment, each with a comment saying
  exactly which fragment of the built-in's semantics is modelled.
* `src/database/booking.model.ts` — `EMAIL_REGEX` and the
  `bookingSchema.pre('save')` hook, with the `Event.exists` query modelled as
  an oracle argument (`Except String Bool`).

Strings are manipulated through their underlying `List Char`.
-/

/-! ## JavaScript string built-ins (ASCII fragment) -/
/-- The ASCII whitespace characters recognized by JavaScript `String.trim`
(space, tab, LF, VT, FF, CR).  `trim` also strips some Unicode space
characters; this model covers the ASCII fragment. -/
def isWsChar (c : Char) : Bool :=
  c.toNat = 32 || c.toNat = 9 || c.toNat = 10 || c.toNat = 11 || c.toNat = 12 || c.toNat = 13

/-- JavaScript `String.prototype.trim` on the character list: drop whitespace
from both ends. -/
def jsTrimL (l : List Char) : List Char :=
  ((l.dropWhile isWsChar).reverse.dropWhile isWsChar).reverse

/-- JavaScript `String.prototype.trim`. -/
def jsTrim (s : String) : String := ⟨jsTrimL s.data⟩

/-- JavaScript `String.prototype.toLowerCase` on one character: ASCII
`A`–`Z` maps to `a`–`z`; every other character in the modelled (ASCII)
fragment is unchanged. -/
def toLowerChar (c : Char) : Char :=
  if 65 ≤ c.toNat ∧ c.toNat ≤ 90 then Char.ofNat (c.toNat + 32) else c

/-- JavaScript `String.prototype.toLowerCase` on the character list. -/
def toLowerL (l : List Char) : List Char := l.map toLowerChar

/-- JavaScript `String.prototype.toLowerCase`. -/
def toLowerStr (s : String) : String := ⟨toLowerL s.data⟩

/-- Digit character class `\d` (and `[0-9]`). -/
def isDigitC (c : Char) : Bool := 48 ≤ c.toNat && c.toNat ≤ 57

/-- Character class `[0-2]`. -/
def isC02 (c : Char) : Bool := 48 ≤ c.toNat && c.toNat ≤ 50

/-- Character class `[0-5]`. -/
def isC05 (c : Char) : Bool := 48 ≤ c.toNat && c.toNat ≤ 53

/-- Numeric value of a digit character (the effect of `parseInt` on one
digit). -/
def digitVal (c : Char) : Nat := c.toNat - 48

/-- The character for a decimal digit `k ≤ 9`. -/
def digitChar48 (k : Nat) : Char := Char.ofNat (48 + k)

/-- `n.toString().padStart(2, '0')` for `n ≤ 99`: the two decimal digits of
`n` (high digit first). -/
def pad2 (n : Nat) : String := ⟨[digitChar48 (n / 10), digitChar48 (n % 10)]⟩

/-! ## `slugify` (src/database/event.model.ts, lines 32–39)

```ts
const slugify = (value: string): string => {
  return value.toString().trim().toLowerCase()
    .replace(/[^a-z0-9]+/g, '-')
    .replace(/^-+|-+$/g, '');
};
``` -/
/-- Character class `[a-z0-9]` (the characters kept by `slugify`). -/
def isSlugKeep (c : Char) : Bool :=
  (97 ≤ c.toNat && c.toNat ≤ 122) || (48 ≤ c.toNat && c.toNat ≤ 57)

/-- The global replace `/[^a-z0-9]+/g → '-'`: every maximal run of
characters outside `[a-z0-9]` becomes a single hyphen.  `inRun` records
whether we are inside such a run (whose hyphen has already been emitted). -/
def collapseRuns : Bool → List Char → List Char
  | _, [] => []
  | inRun, c :: rest =>
    if isSlugKeep c then c :: collapseRuns false rest
    else if inRun then collapseRuns true rest
    else '-' :: collapseRuns true rest

/-- The global replace `/^-+|-+$/g → ''`: drop leading and trailing runs of
hyphens. -/
def trimHyphens (l : List Char) : List Char :=
  ((l.dropWhile (fun c => c = '-')).reverse.dropWhile (fun c => c = '-')).reverse

/-- `slugify` from src/database/event.model.ts: trim, lower-case, collapse
non-`[a-z0-9]` runs to hyphens, trim hyphens. -/
def slugify (value : String) : String :=
  ⟨trimHyphens (collapseRuns false (toLowerL (jsTrimL value.data)))⟩

/-- Modelled from the spec's words for slug derivation (C8): "lower-casing
`title`, trimming, replacing every maximal run of characters other than
`[a-z0-9]` with a single hyphen, then trimming leading/trailing hyphens".
Note the spec lower-cases before trimming, while the source trims first. -/
def specSlugify (value : String) : String :=
  ⟨trimHyphens (collapseRuns false (jsTrimL (toLowerL value.data)))⟩

/-! ## `normalizeTime` (src/database/event.model.ts, lines 43–67)

```ts
const normalizeTime = (value: string): string | null => {
  const trimmed = value.trim();
  const match = trimmed.match(/^([0-2]?\d):([0-5]\d)$/);
  if (match) { ... if (hour > 23) return null; return `${hh}:${m}`; }
  const compactMatch = trimmed.match(/^([0-2]?\d)([0-5]\d)$/);
  if (compactMatch) { ... if (hour > 23) return null; return `${hh}:${minutes}`; }
  return null;
};
``` -/
/-- Matching `/^([0-2]?\d):([0-5]\d)$/` with JavaScript backtracking:
either `h:mm` (4 chars) or `hh:mm` (5 chars, first hour digit in `[0-2]`).
Returns the parsed hour and the two matched minute characters. -/
def matchColon : List Char → Option (Nat × List Char)
  | [a, b, c, d] =>
    if b = ':' && isDigitC a && isC05 c && isDigitC d then
      some (digitVal a, [c, d])
    else none
  | [a, b, e, c, d] =>
    if e = ':' && isC02 a && isDigitC b && isC05 c && isDigitC d then
      some (10 * digitVal a + digitVal b, [c, d])
    else none
  | _ => none

/-- Matching `/^([0-2]?\d)([0-5]\d)$/` with JavaScript backtracking:
on 3 characters the greedy two-digit hour leaves a single minute character
(which cannot match `[0-5]\d`), so the engine backtracks to a one-digit
hour; on 4 characters only the two-digit hour (first digit in `[0-2]`)
can succeed. -/
def matchCompact : List Char → Option (Nat × List Char)
  | [a, c, d] =>
    if isDigitC a && isC05 c && isDigitC d then
      some (digitVal a, [c, d])
    else none
  | [a, b, c, d] =>
    if isC02 a && isDigitC b && isC05 c && isDigitC d then
      some (10 * digitVal a + digitVal b, [c, d])
    else none
  | _ => none

/-- The returned string `` `${hh}:${mm}` ``: two-digit hour, colon, the two
minute characters. -/
def mkHHmm (hour : Nat) (minuteChars : List Char) : String :=
  pad2 hour ++ ":" ++ ⟨minuteChars⟩

/-- `normalizeTime` from src/database/event.model.ts. -/
def normalizeTime (value : String) : Option String :=
  match matchColon (jsTrimL value.data) with
  | some (hour, m) => if hour > 23 then none else some (mkHHmm hour m)
  | none =>
    match matchCompact (jsTrimL value.data) with
    | some (hour, m) => if hour > 23 then none else some (mkHHmm hour m)
    | none => none

/-- Shape of the spec's pattern (a) (C6): colon-separated `H:mm`/`HH:mm`,
all components decimal digits; returns hour value, minute value, and the
minute characters. -/
def specColonShape : List Char → Option (Nat × Nat × List Char)
  | [a, b, c, d] =>
    if b = ':' && isDigitC a && isDigitC c && isDigitC d then
      some (digitVal a, 10 * digitVal c + digitVal d, [c, d])
    else none
  | [a, b, e, c, d] =>
    if e = ':' && isDigitC a && isDigitC b && isDigitC c && isDigitC d then
      some (10 * digitVal a + digitVal b, 10 * digitVal c + digitVal d, [c, d])
    else none
  | _ => none

/-- Shape of the spec's pattern (b) (C6): compact `Hmm`/`HHmm`, all decimal
digits. -/
def specCompactShape : List Char → Option (Nat × Nat × List Char)
  | [a, c, d] =>
    if isDigitC a && isDigitC c && isDigitC d then
      some (digitVal a, 10 * digitVal c + digitVal d, [c, d])
    else none
  | [a, b, c, d] =>
    if isDigitC a && isDigitC b && isDigitC c && isDigitC d then
      some (10 * digitVal a + digitVal b, 10 * digitVal c + digitVal d, [c, d])
    else none
  | _ => none

/-- Modelled from the spec's words for time normalization (C6): try the
colon-separated pattern, then the compact pattern; a match is accepted when
hour ∈ [0,23] and minute ∈ [0,59]; on success rewrite to two-digit-hour
`HH:mm`. -/
def specTimeNormalize (value : String) : Option String :=
  match specColonShape (jsTrimL value.data) with
  | some (hour, minute, mc) =>
    if hour ≤ 23 && minute ≤ 59 then some (mkHHmm hour mc) else none
  | none =>
    match specCompactShape (jsTrimL value.data) with
    | some (hour, minute, mc) =>
      if hour ≤ 23 && minute ≤ 59 then some (mkHHmm hour mc) else none
    | none => none

/-! ## Date parsing and formatting (src/database/event.model.ts, lines 148–155)

```ts
if (doc.date) {
  const parsed = new Date(doc.date);
  if (Number.isNaN(parsed.getTime())) {
    return next(new Error('Invalid date format. Expected a valid date string.'));
  }
  doc.date = parsed.toISOString().split('T')[0];
}
```

`new Date(string)` and `toISOString` are ECMAScript built-ins.  The model
covers the fragment relevant here:

* ISO date-only strings `YYYY-MM-DD` (4-digit year, valid month and
  day-of-month) parse as **UTC** midnight (ECMA-262 Date Time String
  Format);
* US month-name strings `Month D, YYYY` (e.g. `"March 5, 2024"`, year
  ≥ 1) parse as **local** midnight (implementation-defined in ECMA-262;
  this is what V8/Node does);
* everything else is outside the modelled fragment and yields `none`
  (an invalid date).

`parsed.toISOString().split('T')[0]` is the UTC calendar date of the
parsed instant.  For a string parsed as UTC that is the written date
itself; for a string parsed as local midnight in a zone `tz` minutes
east of UTC (real zones satisfy `-1440 < tz < 1440`), the UTC instant is
`tz` minutes before local midnight, so the UTC calendar date is the
previous day when `tz > 0` and the same day otherwise. -/
/-- A calendar date. -/
structure CivilDate where
  year : Nat
  month : Nat
  day : Nat

deriving DecidableEq, Repr

/-- Number of days in a month of the proleptic Gregorian calendar (the
calendar used by ECMAScript `Date`). -/
def daysInMonth (y m : Nat) : Nat :=
  if m = 2 then
    if y % 4 = 0 && (y % 100 ≠ 0 || y % 400 = 0) then 29 else 28
  else if m = 4 || m = 6 || m = 9 || m = 11 then 30
  else 31

/-- A calendar date representable in the modelled fragment: valid month,
valid day-of-month, 4-digit (or smaller) year. -/
def ValidCivil (c : CivilDate) : Prop :=
  1 ≤ c.month ∧ c.month ≤ 12 ∧ 1 ≤ c.day ∧ c.day ≤ daysInMonth c.year c.month ∧
    c.year ≤ 9999

instance (c : CivilDate) : Decidable (ValidCivil c) := by
  unfold ValidCivil; infer_instance

/-- The four decimal digits of a year `y ≤ 9999` (as printed by
`toISOString`). -/
def pad4 (y : Nat) : List Char :=
  [digitChar48 (y / 1000), digitChar48 (y / 100 % 10),
   digitChar48 (y / 10 % 10), digitChar48 (y % 10)]

/-- `toISOString().split('T')[0]` applied to a date with a 4-digit year:
the `YYYY-MM-DD` string. -/
def formatISOL (c : CivilDate) : List Char :=
  pad4 c.year ++ '-' :: (pad2 c.month).data ++ '-' :: (pad2 c.day).data

/-- `YYYY-MM-DD` as a string. -/
def formatISO (c : CivilDate) : String := ⟨formatISOL c⟩

/-- Parse an ISO `YYYY-MM-DD` date-only string (ECMA-262 Date Time String
Format, date-only, 4-digit year).  Out-of-range month or day-of-month
makes the whole string an invalid date, as in V8. -/
def parseISO : List Char → Option CivilDate
  | [a, b, c, d, h1, e, f, h2, g, i] =>
    if h1 = '-' && h2 = '-' && isDigitC a && isDigitC b && isDigitC c && isDigitC d &&
        isDigitC e && isDigitC f && isDigitC g && isDigitC i then
      let y := 1000 * digitVal a + 100 * digitVal b + 10 * digitVal c + digitVal d
      let m := 10 * digitVal e + digitVal f
      let dd := 10 * digitVal g + digitVal i
      if 1 ≤ m && m ≤ 12 && 1 ≤ dd && dd ≤ daysInMonth y m then
        some ⟨y, m, dd⟩
      else none
    else none
  | _ => none

/-- Strip a literal character-list prefix, returning the remainder. -/
def stripLead : List Char → List Char → Option (List Char)
  | [], l => some l
  | _ :: _, [] => none
  | p :: ps, c :: cs => if c = p then stripLead ps cs else none

/-- The English month names accepted by the modelled month-name format. -/
def monthNames : List (String × Nat) :=
  [("January", 1), ("February", 2), ("March", 3), ("April", 4), ("May", 5),
   ("June", 6), ("July", 7), ("August", 8), ("September", 9), ("October", 10),
   ("November", 11), ("December", 12)]

/-- After the month name: `" D, YYYY"` or `" DD, YYYY"` with a valid
day-of-month and a 4-digit year ≥ 1. -/
def parseDayYear (m : Nat) : List Char → Option CivilDate
  | [sp, d1, co, sp2, a, b, c, d] =>
    if sp = ' ' && co = ',' && sp2 = ' ' && isDigitC d1 && isDigitC a && isDigitC b &&
        isDigitC c && isDigitC d then
      let y := 1000 * digitVal a + 100 * digitVal b + 10 * digitVal c + digitVal d
      let dd := digitVal d1
      if 1 ≤ dd && dd ≤ daysInMonth y m && 1 ≤ y then some ⟨y, m, dd⟩ else none
    else none
  | [sp, d1, d2, co, sp2, a, b, c, d] =>
    if sp = ' ' && co = ',' && sp2 = ' ' && isDigitC d1 && isDigitC d2 && isDigitC a &&
        isDigitC b && isDigitC c && isDigitC d then
      let y := 1000 * digitVal a + 100 * digitVal b + 10 * digitVal c + digitVal d
      let dd := 10 * digitVal d1 + digitVal d2
      if 1 ≤ dd && dd ≤ daysInMonth y m && 1 ≤ y then some ⟨y, m, dd⟩ else none
    else none
  | _ => none

/-- Parse the modelled month-name format `Month D, YYYY`. -/
def parseMonthStyle (l : List Char) : Option CivilDate :=
  monthNames.findSome? fun nm =>
    match stripLead nm.1.data l with
    | some rest => parseDayYear nm.2 rest
    | none => none

/-- The result of `new Date(s)` in the modelled fragment: the written
calendar date, together with whether the string was parsed as local time
(`true` for the month-name format) or as UTC (`false` for ISO
date-only). -/
def jsParseDate (s : String) : Option (CivilDate × Bool) :=
  match parseISO (jsTrimL s.data) with
  | some c => some (c, false)
  | none =>
    match parseMonthStyle (jsTrimL s.data) with
    | some c => some (c, true)
    | none => none

/-- The previous calendar day.  Only reached for dates with `year ≥ 1`
(the month-name grammar requires it), so the `⟨0,1,1⟩` underflow case of
natural subtraction is never hit. -/
def prevDay (c : CivilDate) : CivilDate :=
  if 2 ≤ c.day then ⟨c.year, c.month, c.day - 1⟩
  else if 2 ≤ c.month then ⟨c.year, c.month - 1, daysInMonth c.year (c.month - 1)⟩
  else ⟨c.year - 1, 12, 31⟩

/-- The UTC calendar date of the parsed instant, for a process timezone
`tz` minutes east of UTC with `-1440 < tz < 1440`: a string parsed as UTC
keeps its date; a string parsed as local midnight falls on the previous
UTC day exactly when `tz > 0`. -/
def utcShift (tz : Int) (p : CivilDate × Bool) : CivilDate :=
  if p.2 && decide (0 < tz) then prevDay p.1 else p.1

/-- The whole date-normalization expression
`new Date(s)` … `toISOString().split('T')[0]` of the pre-save hook:
`none` when `Number.isNaN(parsed.getTime())`, otherwise the UTC calendar
date of the parsed instant, formatted `YYYY-MM-DD`. -/
def normalizeDate (tz : Int) (s : String) : Option String :=
  (jsParseDate s).map fun p => formatISO (utcShift tz p)

/-! ## The Event pre-save pipeline (src/database/event.model.ts, lines 110–167)

The hook mutates the document (`doc.slug = …`, `doc.date = …`,
`doc.time = …`) and either calls `next()` (success) or `next(err)`
(failure, which makes Mongoose abort the save, so nothing is written).
It is embedded as a pure function threading the document through the
steps in source order; on failure the in-memory candidate (possibly
already partially updated) is discarded and never written.

All `EventAttrs` fields are typed `string` / `string[]` in the source,
so the `typeof value !== 'string'` / `Array.isArray` halves of the
checks cannot fire in the typed model; the emptiness halves are
modelled.  `slug` is `Option String`: `none` models an unset (`undefined`)
slug, and JavaScript's falsiness test `!doc.slug` is true for both
`undefined` and `""` (`jsFalsy`).  `titleModified` models
`doc.isModified('title')` (always `true` for a newly created document). -/
structure EventDoc where
  title : String
  slug : Option String
  description : String
  overview : String
  image : String
  venue : String
  location : String
  date : String
  time : String
  mode : String
  audience : String
  organizer : String
  agenda : List String
  tags : List String

deriving DecidableEq, Repr

/-- The errors raised by the hook, one constructor per failing check. -/
inductive PreSaveErr where
  | requiredField (name : String)
  | agendaEmpty
  | tagsEmpty
  | invalidDate
  | invalidTime

deriving DecidableEq, Repr

/-- The message attached to each error in the source. -/
def errMessage : PreSaveErr → String
  | .requiredField n => n ++ " is required and must be a non-empty string."
  | .agendaEmpty => "agenda is required and must contain at least one item."
  | .tagsEmpty => "tags is required and must contain at least one tag."
  | .invalidDate => "Invalid date format. Expected a valid date string."
  | .invalidTime => "Invalid time format. Use HH:mm or a similar 24h format."

/-- `doc[field]` for the required string fields (only ever applied to the
eleven names of `requiredStringFields`). -/
def fieldGet (doc : EventDoc) : String → String
  | "title" => doc.title
  | "description" => doc.description
  | "overview" => doc.overview
  | "image" => doc.image
  | "venue" => doc.venue
  | "location" => doc.location
  | "date" => doc.date
  | "time" => doc.time
  | "mode" => doc.mode
  | "audience" => doc.audience
  | "organizer" => doc.organizer
  | _ => ""

/-- The `requiredStringFields` array of the source, in source order. -/
def requiredStringFields : List String :=
  ["title", "description", "overview", "image", "venue", "location", "date",
   "time", "mode", "audience", "organizer"]

/-- One step of the pre-save hook, used to express the execution order. -/
inductive StepId where
  | req (name : String)
  | agenda
  | tags
  | slug
  | date
  | time

deriving DecidableEq, Repr

/-- The steps of the hook in source order: the required-field loop, the
agenda check, the tags check, slug derivation, date normalization, time
normalization. -/
def stepOrder : List StepId :=
  (requiredStringFields.map StepId.req) ++
    [StepId.agenda, StepId.tags, StepId.slug, StepId.date, StepId.time]

/-- JavaScript falsiness of `doc.slug` (`!doc.slug`): true for an unset
slug and for the empty string. -/
def jsFalsy : Option String → Bool
  | none => true
  | some s => s = ""

/-- One step of the hook as a function on the document. -/
def runStep (tz : Int) (titleModified : Bool) (st : StepId) (doc : EventDoc) :
    Except PreSaveErr EventDoc :=
  match st with
  | .req name =>
    if (jsTrimL (fieldGet doc name).data).length = 0 then
      .error (.requiredField name)
    else .ok doc
  | .agenda =>
    if doc.agenda.length = 0 then .error .agendaEmpty else .ok doc
  | .tags =>
    if doc.tags.length = 0 then .error .tagsEmpty else .ok doc
  | .slug =>
    .ok (if titleModified || jsFalsy doc.slug then
      { doc with slug := some (slugify doc.title) }
    else doc)
  | .date =>
    if doc.date ≠ "" then
      match normalizeDate tz doc.date with
      | none => .error .invalidDate
      | some d => .ok { doc with date := d }
    else .ok doc
  | .time =>
    if doc.time ≠ "" then
      match normalizeTime doc.time with
      | none => .error .invalidTime
      | some t => .ok { doc with time := t }
    else .ok doc

/-- Run a list of steps in order, short-circuiting on the first failure;
returns the executed steps and the outcome. -/
def runSteps (tz : Int) (titleModified : Bool) :
    List StepId → EventDoc → List StepId × Except PreSaveErr EventDoc
  | [], doc => ([], .ok doc)
  | st :: rest, doc =>
    match runStep tz titleModified st doc with
    | .error e => ([st], .error e)
    | .ok doc' =>
      let r := runSteps tz titleModified rest doc'
      (st :: r.1, r.2)

/-- The executed steps and outcome of one run of the pre-save hook. -/
def runPreSave (tz : Int) (titleModified : Bool) (doc : EventDoc) :
    List StepId × Except PreSaveErr EventDoc :=
  runSteps tz titleModified stepOrder doc

/-- The outcome of the pre-save hook. -/
def preSave (tz : Int) (titleModified : Bool) (doc : EventDoc) :
    Except PreSaveErr EventDoc :=
  (runPreSave tz titleModified doc).2

/-- `doc.save()`: the document that is written, if any.  Mongoose aborts
the save when the hook passes an error to `next`, so a failed hook
writes nothing. -/
def saveEvent (tz : Int) (titleModified : Bool) (doc : EventDoc) : Option EventDoc :=
  (preSave tz titleModified doc).toOption

/-- The step a given error originates from (each error names its field). -/
def errStep : PreSaveErr → StepId
  | .requiredField n => .req n
  | .agendaEmpty => .agenda
  | .tagsEmpty => .tags
  | .invalidDate => .date
  | .invalidTime => .time

/-- The required-string-field checks of the hook, one conjunct per field in
source order: non-empty after trimming. -/
def ReqOk (doc : EventDoc) : Prop :=
  (jsTrimL doc.title.data).length ≠ 0 ∧
  (jsTrimL doc.description.data).length ≠ 0 ∧
  (jsTrimL doc.overview.data).length ≠ 0 ∧
  (jsTrimL doc.image.data).length ≠ 0 ∧
  (jsTrimL doc.venue.data).length ≠ 0 ∧
  (jsTrimL doc.location.data).length ≠ 0 ∧
  (jsTrimL doc.date.data).length ≠ 0 ∧
  (jsTrimL doc.time.data).length ≠ 0 ∧
  (jsTrimL doc.mode.data).length ≠ 0 ∧
  (jsTrimL doc.audience.data).length ≠ 0 ∧
  (jsTrimL doc.organizer.data).length ≠ 0

/-! ## The Booking pre-save hook (src/database/booking.model.ts, lines 226–248)

```ts
bookingSchema.pre<BookingDocument>('save', async function preSave(next) {
  if (!doc.email || !EMAIL_REGEX.test(doc.email)) {
    return next(new Error('A valid email address is required.'));
  }
  if (!doc.eventId) { return next(new Error('eventId is required.')); }
  try {
    const eventExists = await Event.exists({ _id: doc.eventId } ...);
    if (!eventExists) { return next(new Error('The referenced event does not exist.')); }
  } catch (error) { return next(error as Error); }
  next();
});
```

The schema declares `email` with `trim: true, lowercase: true`, so by the
time the hook runs, `doc.email` holds the trimmed, lower-cased input.
`eventId` (a Mongo `ObjectId`) is modelled as `Option Nat` (`none` =
absent); the network query `Event.exists` is modelled as an oracle value
`Except String Bool`: `.ok true`/`.ok false` for the two query results
and `.error msg` for a query that throws (e.g. connection failure). -/
deriving instance DecidableEq for Except

structure BookingDoc where
  eventId : Option Nat
  email : String

deriving DecidableEq, Repr

/-- The distinct failures of the Booking hook.  `lookupFailed` carries the
error thrown by the existence check itself (propagated unchanged by the
`catch` block) and is a different constructor from `refIntegrity`. -/
inductive BookingErr where
  | invalidEmail
  | missingEventId
  | refIntegrity
  | lookupFailed (msg : String)

deriving DecidableEq, Repr

/-- `EMAIL_REGEX = /^[^\s@]+@[^\s@]+\.[^\s@]+$/` character class
`[^\s@]`. -/
def emailOkChar (c : Char) : Bool := !isWsChar c && c ≠ '@'

/-- Split at the first occurrence of a character, returning the parts
before and after it. -/
def splitAtFirst (ch : Char) : List Char → Option (List Char × List Char)
  | [] => none
  | x :: xs =>
    if x = ch then some ([], xs)
    else (splitAtFirst ch xs).map fun p => (x :: p.1, p.2)

/-- `EMAIL_REGEX.test`: the string is `local@rest` where `local` is a
non-empty run of `[^\s@]`, and `rest` is a non-empty run of `[^\s@]`
containing a dot that is neither its first nor its last character
(the backtracking split `rest = b ++ "." ++ c` with `b`, `c` non-empty).
Since both classes exclude `@`, the first `@` is the only one. -/
def emailMatches (s : String) : Bool :=
  match splitAtFirst '@' s.data with
  | none => false
  | some (loc, rest) =>
    loc ≠ [] && loc.all emailOkChar && rest ≠ [] && rest.all emailOkChar &&
      (rest.drop 1).dropLast.contains '.'

/-- The Booking pre-save hook as a function of the document and the
existence-check oracle.  The stored `email` is the trimmed, lower-cased
input (the schema's `trim`/`lowercase` setters run before the hook). -/
def bookingPreSave (doc : BookingDoc) (existsRes : Except String Bool) :
    Except BookingErr BookingDoc :=
  if toLowerStr (jsTrim doc.email) = "" || !emailMatches (toLowerStr (jsTrim doc.email)) then
    .error .invalidEmail
  else
    match doc.eventId with
    | none => .error .missingEventId
    | some _ =>
      match existsRes with
      | .error msg => .error (.lookupFailed msg)
      | .ok false => .error .refIntegrity
      | .ok true => .ok { doc with email := toLowerStr (jsTrim doc.email) }

/-- `Booking.create(...)` / `doc.save()`: persists only when the hook
succeeds; a hook error aborts the save and nothing is written. -/
def bookingSave (doc : BookingDoc) (existsRes : Except String Bool) : Option BookingDoc :=
  (bookingPreSave doc existsRes).toOption

/-! ## The connection cache (src/lib/mongodb.ts)

The module body (lines 18–34) reads `process.env.MONGODB_URI`, throws if
it is missing, and installs the cache `{ conn: null, promise: null }`.
`connectToDatabase` (lines 42–64) then runs, per call:

```ts
if (cached.conn) { return cached.conn; }          // (1)
if (!cached.promise) {                            // (2)
  cached.promise = mongoose.connect(MONGODB_URI as string, options)
    .then((m) => m);                              //     start the attempt
}
cached.conn = await cached.promise;               // (3) suspend
return cached.conn;
```

Lines (1)–(2) contain no `await`, so under the single-threaded
JavaScript event loop they run atomically per call; the only suspension
point is (3).  The embedding is a small-step transition system: each
caller performs one atomic `callHit`/`callJoin`/`callStart` step for
(1)–(2) and one `resumeOk`/`resumeErr` step for (3) once the awaited
attempt has settled.  `mongoose.connect` itself is the environment: the
`settle` step resolves or rejects a started attempt, at most once.
Note that on rejection the code has no handler that clears
`cached.promise`; the model reflects this (no step ever resets it). -/
/-- The module-level cache `{ conn, promise }`, plus a counter of how many
`mongoose.connect` calls have been started (attempt `a` is the `a`-th
one). -/
structure CacheState where
  conn : Option Nat
  promise : Option Nat
  nextAttempt : Nat

deriving DecidableEq, Repr

/-- The program counter of one `connectToDatabase()` call: not yet run,
suspended on `await cached.promise` (awaiting attempt `a`), returned with
handle `h`, or terminated by a rejection of the awaited promise. -/
inductive CallerPC where
  | start
  | awaiting (a : Nat)
  | done (h : Nat)
  | failed

deriving DecidableEq, Repr

/-- The whole system: the cache, one program counter per concurrent
caller, and the settled outcome of each started attempt (`none` while the
connect is in flight; `.ok h` resolves with handle `h`, `.error ()`
rejects). -/
structure Sys where
  cache : CacheState
  callers : List CallerPC
  settled : List (Option (Except Unit Nat))

deriving DecidableEq, Repr

/-- The initial state for `n` concurrent calls, before any connection
exists: `conn = null`, `promise = null`, no attempt started. -/
def initSys (n : Nat) : Sys :=
  ⟨⟨none, none, 0⟩, List.replicate n .start, []⟩

/-- One atomic step of the system. -/
inductive SysStep : Sys → Sys → Prop
  /-- Line (1): `cached.conn` is set, the call returns it immediately. -/
  | callHit (s : Sys) (i : Nat) (h : Nat)
      (hpc : s.callers[i]? = some .start) (hc : s.cache.conn = some h) :
      SysStep s { s with callers := s.callers.set i (.done h) }
  /-- Line (2), promise already set: the call awaits the same pending
  attempt without starting a new one. -/
  | callJoin (s : Sys) (i : Nat) (a : Nat)
      (hpc : s.callers[i]? = some .start) (hc : s.cache.conn = none)
      (hp : s.cache.promise = some a) :
      SysStep s { s with callers := s.callers.set i (.awaiting a) }
  /-- Line (2), promise unset: the call starts attempt `nextAttempt`
  (one `mongoose.connect` call), stores it in `cached.promise`, and
  awaits it. -/
  | callStart (s : Sys) (i : Nat)
      (hpc : s.callers[i]? = some .start) (hc : s.cache.conn = none)
      (hp : s.cache.promise = none) :
      SysStep s { cache := ⟨none, some s.cache.nextAttempt, s.cache.nextAttempt + 1⟩,
                  callers := s.callers.set i (.awaiting s.cache.nextAttempt),
                  settled := s.settled ++ [none] }
  /-- The environment settles a started, still-pending attempt. -/
  | settle (s : Sys) (a : Nat) (r : Except Unit Nat)
      (ha : s.settled[a]? = some none) :
      SysStep s { s with settled := s.settled.set a (some r) }
  /-- Line (3) after the awaited promise resolved with `h`: the caller
  assigns `cached.conn = h` and returns `h`. -/
  | resumeOk (s : Sys) (i : Nat) (a : Nat) (h : Nat)
      (hpc : s.callers[i]? = some (.awaiting a))
      (hs : s.settled[a]? = some (some (.ok h))) :
      SysStep s { s with cache.conn := some h, callers := s.callers.set i (.done h) }
  /-- Line (3) after the awaited promise rejected: `await` re-throws, the
  caller fails; nothing resets `cached.conn` or `cached.promise`. -/
  | resumeErr (s : Sys) (i : Nat) (a : Nat)
      (hpc : s.callers[i]? = some (.awaiting a))
      (hs : s.settled[a]? = some (some (.error ()))) :
      SysStep s { s with callers := s.callers.set i .failed }

/-- Reachability from the initial state of `n` concurrent calls. -/
def Reach (n : Nat) (s : Sys) : Prop :=
  Relation.ReflTransGen SysStep (initSys n) s

/-- The module body of src/lib/mongodb.ts (lines 16–34): read
`process.env.MONGODB_URI` and run `if (!MONGODB_URI) throw ...` — the
falsiness test fires both when the variable is not set (`undefined`) and
when it is set to the empty string — this runs when the module is first
evaluated (at import time), before `connectToDatabase` can be called at
all — then install the cache `{ conn: null, promise: null }`.  `uri` is
the environment value (`none` = variable not set); `.error` is the
thrown configuration error, which propagates out of the module
evaluation unhandled. -/
structure ModuleState where
  uri : String
  cache : CacheState

deriving DecidableEq, Repr

/-- The message of the configuration error thrown at module evaluation. -/
def configErrorMsg : String :=
  "Please define the MONGODB_URI environment variable in your environment."

/-- Module evaluation as a function of the environment variable. -/
def initModule (uri : Option String) : Except String ModuleState :=
  match uri with
  | none => .error configErrorMsg
  | some u => if u = "" then .error configErrorMsg else .ok ⟨u, ⟨none, none, 0⟩⟩

/-- The inductive invariant of the connection cache, for runs that start
before any connection exists. -/
def CacheInv (s : Sys) : Prop :=
  s.cache.nextAttempt ≤ 1 ∧
  s.settled.length = s.cache.nextAttempt ∧
  (∀ a : Nat, s.cache.promise = some a → a = 0 ∧ s.cache.nextAttempt = 1) ∧
  (s.cache.promise = none → s.cache.nextAttempt = 0) ∧
  (∀ h : Nat, s.cache.conn = some h → s.settled[0]? = some (some (Except.ok h))) ∧
  (∀ i a : Nat, s.callers[i]? = some (CallerPC.awaiting a) →
    a = 0 ∧ s.cache.promise = some 0) ∧
  (∀ i h : Nat, s.callers[i]? = some (CallerPC.done h) →
    s.settled[0]? = some (some (Except.ok h))) ∧
  (∀ i : Nat, s.callers[i]? = some CallerPC.failed →
    s.settled[0]? = some (some (Except.error ())))

/-- An Event candidate whose title contains no alphanumeric character but
is non-empty after trimming, with all other fields valid. -/
def badTitleDoc : EventDoc :=
  ⟨"!!!", none, "d", "o", "i", "v", "l", "2024-03-05", "09:30", "m", "a", "org",
    ["item"], ["tag"]⟩

/-- The document the pipeline persists for `badTitleDoc`: identical except
for the derived (empty) slug. -/
def badTitleOut : EventDoc :=
  ⟨"!!!", some "", "d", "o", "i", "v", "l", "2024-03-05", "09:30", "m", "a", "org",
    ["item"], ["tag"]⟩

/-- An Event candidate that fails only at the final (time) step. -/
def badTimeDoc : EventDoc :=
  ⟨"Party", none, "d", "o", "i", "v", "l", "2024-03-05", "99:99", "m", "a", "org",
    ["item"], ["tag"]⟩

/-- The final state of a successful two-caller run: one attempt, both
calls returned handle 7. -/
def demoOkSys : Sys :=
  ⟨⟨some 7, some 0, 1⟩, [CallerPC.done 7, CallerPC.done 7], [some (Except.ok 7)]⟩

/-- The state after the single connection attempt failed, its failure was
delivered to caller 0, and a later call (caller 1) joined the same stored
rejected promise and failed too. -/
def demoFailSys : Sys :=
  ⟨⟨none, some 0, 1⟩, [CallerPC.failed, CallerPC.failed], [some (Except.error ())]⟩

/-- The concrete Event of the spec's slug example. -/
def myEventDoc : EventDoc :=
  ⟨"My Event! 2024", none, "d", "o", "i", "v", "l", "2024-03-05", "09:30", "m", "a",
    "org", ["item"], ["tag"]⟩

/-- What the pipeline persists for `myEventDoc`. -/
def myEventOut : EventDoc :=
  ⟨"My Event! 2024", some "my-event-2024", "d", "o", "i", "v", "l", "2024-03-05",
    "09:30", "m", "a", "org", ["item"], ["tag"]⟩

/-! ## Properties -/

example : normalizeTime "930" = some "09:30" := by decide

example : normalizeTime "25:00" = none := by decide

example : normalizeTime "9:30" = some "09:30" := by decide

example : normalizeTime " 23:59 " = some "23:59" := by decide

example : normalizeTime "24:00" = none := by decide

example : normalizeTime "130" = some "01:30" := by decide

example : normalizeTime "2359" = some "23:59" := by decide

example : normalizeTime "30:15" = none := by decide

example : slugify "My Event! 2024" = "my-event-2024" := by decide

example : slugify "!!!" = "" := by decide

example : specSlugify "My Event! 2024" = "my-event-2024" := by decide

example : jsParseDate "March 5, 2024" = some (⟨2024, 3, 5⟩, true) := by decide

example : normalizeDate 0 "March 5, 2024" = some "2024-03-05" := by decide

example : normalizeDate (-300) "March 5, 2024" = some "2024-03-05" := by decide

example : normalizeDate 60 "March 5, 2024" = some "2024-03-04" := by decide

example : normalizeDate 0 "2024-03-05" = some "2024-03-05" := by decide

example : normalizeDate 120 "2024-03-05" = some "2024-03-05" := by decide

example : normalizeDate 0 "2024-02-30" = none := by decide

example : normalizeDate 0 "not a date" = none := by decide

example : normalizeDate 60 "March 1, 2024" = some "2024-02-29" := by decide

example : normalizeDate 60 "January 1, 2024" = some "2023-12-31" := by decide

/-! ## Helper lemmas about the modelled built-ins -/
theorem toNat_ofNat_small (n : Nat) (h : n < 55296) : (Char.ofNat n).toNat = n := by
  have hv : n.isValidChar := Or.inl h
  simp [Char.ofNat, hv]
  simp [Char.ofNatAux, Char.toNat, UInt32.toNat, UInt32.ofNatCore]

theorem toNat_digitChar48 (k : Nat) (h : k ≤ 9) : (digitChar48 k).toNat = 48 + k :=
  toNat_ofNat_small _ (by omega)

theorem isDigitC_digitChar48 (k : Nat) (h : k ≤ 9) : isDigitC (digitChar48 k) = true := by
  simp [isDigitC, toNat_digitChar48 k h]; omega

theorem digitVal_digitChar48 (k : Nat) (h : k ≤ 9) : digitVal (digitChar48 k) = k := by
  simp [digitVal, toNat_digitChar48 k h]

theorem isWs_digitChar48 (k : Nat) (h : k ≤ 9) : isWsChar (digitChar48 k) = false := by
  simp [isWsChar, toNat_digitChar48 k h]; omega

theorem dropWhile_eq_self_of_all (p : Char → Bool) (l : List Char)
    (h : ∀ c ∈ l, p c = false) : l.dropWhile p = l := by
  cases l with
  | nil => rfl
  | cons a l => simp [List.dropWhile_cons, h a (by simp)]

theorem jsTrimL_eq_self (l : List Char) (h : ∀ c ∈ l, isWsChar c = false) :
    jsTrimL l = l := by
  unfold jsTrimL
  rw [dropWhile_eq_self_of_all _ _ h]
  rw [dropWhile_eq_self_of_all _ _ (by intro c hc; exact h c (List.mem_reverse.mp hc))]
  exact List.reverse_reverse l

/-! ## Round-trip facts for date formatting -/
theorem daysInMonth_pos (y m : Nat) : 1 ≤ daysInMonth y m := by
  unfold daysInMonth; split_ifs <;> omega

theorem daysInMonth_dec (y : Nat) : daysInMonth y 12 = 31 := by
  unfold daysInMonth; norm_num

theorem formatISOL_eq (c : CivilDate) :
    formatISOL c =
      [digitChar48 (c.year / 1000), digitChar48 (c.year / 100 % 10),
       digitChar48 (c.year / 10 % 10), digitChar48 (c.year % 10), '-',
       digitChar48 (c.month / 10), digitChar48 (c.month % 10), '-',
       digitChar48 (c.day / 10), digitChar48 (c.day % 10)] := rfl

theorem formatISOL_not_ws (c : CivilDate) (h : ValidCivil c) :
    ∀ ch ∈ formatISOL c, isWsChar ch = false := by
  obtain ⟨h1, h2, h3, h4, h5⟩ := h
  have hd : c.day ≤ 31 := by
    have := h4; unfold daysInMonth at this; split_ifs at this <;> omega
  intro ch hch
  rw [formatISOL_eq] at hch
  simp only [List.mem_cons, List.not_mem_nil, or_false] at hch
  rcases hch with h' | h' | h' | h' | h' | h' | h' | h' | h' | h' <;> subst h' <;>
    first
      | exact isWs_digitChar48 _ (by omega)
      | decide

theorem parseISO_formatISOL (c : CivilDate) (h : ValidCivil c) :
    parseISO (formatISOL c) = some c := by
  obtain ⟨h1, h2, h3, h4, h5⟩ := h
  have hd : c.day ≤ 31 := by
    have := h4; unfold daysInMonth at this; split_ifs at this <;> omega
  rw [formatISOL_eq]
  unfold parseISO
  simp only [isDigitC_digitChar48 _ (by omega : c.year / 1000 ≤ 9),
    isDigitC_digitChar48 _ (by omega : c.year / 100 % 10 ≤ 9),
    isDigitC_digitChar48 _ (by omega : c.year / 10 % 10 ≤ 9),
    isDigitC_digitChar48 _ (by omega : c.year % 10 ≤ 9),
    isDigitC_digitChar48 _ (by omega : c.month / 10 ≤ 9),
    isDigitC_digitChar48 _ (by omega : c.month % 10 ≤ 9),
    isDigitC_digitChar48 _ (by omega : c.day / 10 ≤ 9),
    isDigitC_digitChar48 _ (by omega : c.day % 10 ≤ 9),
    digitVal_digitChar48 _ (by omega : c.year / 1000 ≤ 9),
    digitVal_digitChar48 _ (by omega : c.year / 100 % 10 ≤ 9),
    digitVal_digitChar48 _ (by omega : c.year / 10 % 10 ≤ 9),
    digitVal_digitChar48 _ (by omega : c.year % 10 ≤ 9),
    digitVal_digitChar48 _ (by omega : c.month / 10 ≤ 9),
    digitVal_digitChar48 _ (by omega : c.month % 10 ≤ 9),
    digitVal_digitChar48 _ (by omega : c.day / 10 ≤ 9),
    digitVal_digitChar48 _ (by omega : c.day % 10 ≤ 9)]
  have hy : 1000 * (c.year / 1000) + 100 * (c.year / 100 % 10) + 10 * (c.year / 10 % 10) +
      c.year % 10 = c.year := by omega
  have hm : 10 * (c.month / 10) + c.month % 10 = c.month := by omega
  have hdd : 10 * (c.day / 10) + c.day % 10 = c.day := by omega
  simp only [hy, hm, hdd]
  rw [if_pos (by decide), if_pos (by simp; omega)]

theorem parseISO_valid (l : List Char) (c : CivilDate) (h : parseISO l = some c) :
    ValidCivil c := by
  unfold parseISO at h
  split at h
  · next a b c' d h1 e f h2 g i =>
    simp only [Option.ite_none_right_eq_some, Option.some.injEq] at h
    obtain ⟨hA, hB, h⟩ := h
    simp only [isDigitC, Bool.and_eq_true, decide_eq_true_eq] at hA
    simp only [Bool.and_eq_true, decide_eq_true_eq] at hB
    subst h
    simp only [ValidCivil, digitVal] at hB ⊢
    exact ⟨by omega, by omega, by omega, by omega, by omega⟩
  · exact absurd h (by simp)

theorem parseDayYear_valid (m : Nat) (hm1 : 1 ≤ m) (hm2 : m ≤ 12) (l : List Char)
    (c : CivilDate) (h : parseDayYear m l = some c) : ValidCivil c ∧ 1 ≤ c.year := by
  unfold parseDayYear at h
  split at h
  · simp only [Option.ite_none_right_eq_some, Option.some.injEq] at h
    obtain ⟨hA, hB, h⟩ := h
    simp only [isDigitC, Bool.and_eq_true, decide_eq_true_eq] at hA
    simp only [Bool.and_eq_true, decide_eq_true_eq] at hB
    subst h
    simp only [ValidCivil, digitVal] at hB ⊢
    exact ⟨⟨hm1, hm2, by omega, by omega, by omega⟩, by omega⟩
  · simp only [Option.ite_none_right_eq_some, Option.some.injEq] at h
    obtain ⟨hA, hB, h⟩ := h
    simp only [isDigitC, Bool.and_eq_true, decide_eq_true_eq] at hA
    simp only [Bool.and_eq_true, decide_eq_true_eq] at hB
    subst h
    simp only [ValidCivil, digitVal] at hB ⊢
    exact ⟨⟨hm1, hm2, by omega, by omega, by omega⟩, by omega⟩
  · exact absurd h (by simp)

theorem findSome?_months_valid (ms : List (String × Nat))
    (hms : ∀ p ∈ ms, 1 ≤ p.2 ∧ p.2 ≤ 12) (l : List Char) (c : CivilDate)
    (h : (ms.findSome? fun nm =>
        match stripLead nm.1.data l with
        | some rest => parseDayYear nm.2 rest
        | none => none) = some c) :
    ValidCivil c ∧ 1 ≤ c.year := by
  induction ms with
  | nil => exact absurd h (by simp)
  | cons a ms ih =>
    rw [List.findSome?_cons] at h
    split at h
    · next b hb =>
      injection h with h
      subst h
      split at hb
      · exact parseDayYear_valid a.2 (hms a (by simp)).1 (hms a (by simp)).2 _ b hb
      · exact absurd hb (by simp)
    · exact ih (fun p hp => hms p (by simp [hp])) h

theorem parseMonthStyle_valid (l : List Char) (c : CivilDate)
    (h : parseMonthStyle l = some c) : ValidCivil c ∧ 1 ≤ c.year := by
  unfold parseMonthStyle at h
  exact findSome?_months_valid monthNames (by decide) l c h

theorem prevDay_valid (c : CivilDate) (h : ValidCivil c) (hy : 1 ≤ c.year) :
    ValidCivil (prevDay c) := by
  obtain ⟨h1, h2, h3, h4, h5⟩ := h
  unfold prevDay
  split_ifs with hd hm
  · exact ⟨h1, h2, show 1 ≤ c.day - 1 by omega,
      show c.day - 1 ≤ daysInMonth c.year c.month by omega, h5⟩
  · exact ⟨show 1 ≤ c.month - 1 by omega, show c.month - 1 ≤ 12 by omega,
      show 1 ≤ daysInMonth c.year (c.month - 1) from daysInMonth_pos _ _,
      show daysInMonth c.year (c.month - 1) ≤ daysInMonth c.year (c.month - 1) from le_refl _,
      h5⟩
  · exact ⟨show (1 : Nat) ≤ 12 by omega, show (12 : Nat) ≤ 12 by omega,
      show (1 : Nat) ≤ 31 by omega,
      show (31 : Nat) ≤ daysInMonth (c.year - 1) 12 by rw [daysInMonth_dec],
      show c.year - 1 ≤ 9999 by omega⟩

theorem utcShift_valid (tz : Int) (p : CivilDate × Bool) (h : ValidCivil p.1)
    (hy : p.2 = true → 1 ≤ p.1.year) : ValidCivil (utcShift tz p) := by
  unfold utcShift
  split_ifs with hs
  · simp only [Bool.and_eq_true] at hs
    exact prevDay_valid p.1 h (hy hs.1)
  · exact h

theorem jsParseDate_valid (s : String) (p : CivilDate × Bool)
    (h : jsParseDate s = some p) : ValidCivil p.1 ∧ (p.2 = true → 1 ≤ p.1.year) := by
  unfold jsParseDate at h
  split at h
  · next c hc =>
    injection h with h
    subst h
    exact ⟨parseISO_valid _ _ hc, by simp⟩
  · split at h
    · next c hc =>
      injection h with h
      subst h
      have := parseMonthStyle_valid _ _ hc
      exact ⟨this.1, fun _ => this.2⟩
    · exact absurd h (by simp)

theorem jsParseDate_formatISO (c : CivilDate) (h : ValidCivil c) :
    jsParseDate (formatISO c) = some (c, false) := by
  unfold jsParseDate formatISO
  have hd : (String.mk (formatISOL c)).data = formatISOL c := rfl
  rw [hd, jsTrimL_eq_self _ (formatISOL_not_ws c h), parseISO_formatISOL c h]

theorem normalizeDate_formatISO (tz : Int) (c : CivilDate) (h : ValidCivil c) :
    normalizeDate tz (formatISO c) = some (formatISO c) := by
  unfold normalizeDate
  rw [jsParseDate_formatISO c h]
  simp [utcShift]

/-! ## Round-trip facts for time normalization -/
theorem mkHHmm_data (hour : Nat) (mc : List Char) :
    (mkHHmm hour mc).data = digitChar48 (hour / 10) :: digitChar48 (hour % 10) :: ':' :: mc := by
  unfold mkHHmm pad2
  rw [String.data_append, String.data_append]
  rfl

theorem matchColon_shape (l : List Char) (hour : Nat) (mc : List Char)
    (h : matchColon l = some (hour, mc)) :
    ∃ c d, mc = [c, d] ∧ isC05 c = true ∧ isDigitC d = true ∧ hour ≤ 29 := by
  unfold matchColon at h
  split at h
  · next a b c d =>
    simp only [Option.ite_none_right_eq_some, Option.some.injEq, Prod.mk.injEq] at h
    obtain ⟨hc, h1, h2⟩ := h
    simp only [Bool.and_eq_true, isDigitC, isC05, decide_eq_true_eq] at hc
    exact ⟨c, d, h2.symm, by simp [isC05]; omega, by simp [isDigitC]; omega,
      by simp [digitVal] at h1 ⊢; omega⟩
  · next a b e c d =>
    simp only [Option.ite_none_right_eq_some, Option.some.injEq, Prod.mk.injEq] at h
    obtain ⟨hc, h1, h2⟩ := h
    simp only [Bool.and_eq_true, isDigitC, isC05, isC02, decide_eq_true_eq] at hc
    exact ⟨c, d, h2.symm, by simp [isC05]; omega, by simp [isDigitC]; omega,
      by simp [digitVal] at h1 ⊢; omega⟩
  · exact absurd h (by simp)

theorem matchCompact_shape (l : List Char) (hour : Nat) (mc : List Char)
    (h : matchCompact l = some (hour, mc)) :
    ∃ c d, mc = [c, d] ∧ isC05 c = true ∧ isDigitC d = true ∧ hour ≤ 29 := by
  unfold matchCompact at h
  split at h
  · next a c d =>
    simp only [Option.ite_none_right_eq_some, Option.some.injEq, Prod.mk.injEq] at h
    obtain ⟨hc, h1, h2⟩ := h
    simp only [Bool.and_eq_true, isDigitC, isC05, decide_eq_true_eq] at hc
    exact ⟨c, d, h2.symm, by simp [isC05]; omega, by simp [isDigitC]; omega,
      by simp [digitVal] at h1 ⊢; omega⟩
  · next a b c d =>
    simp only [Option.ite_none_right_eq_some, Option.some.injEq, Prod.mk.injEq] at h
    obtain ⟨hc, h1, h2⟩ := h
    simp only [Bool.and_eq_true, isDigitC, isC05, isC02, decide_eq_true_eq] at hc
    exact ⟨c, d, h2.symm, by simp [isC05]; omega, by simp [isDigitC]; omega,
      by simp [digitVal] at h1 ⊢; omega⟩
  · exact absurd h (by simp)

theorem normalizeTime_shape (s t : String) (h : normalizeTime s = some t) :
    ∃ hour c d, hour ≤ 23 ∧ isC05 c = true ∧ isDigitC d = true ∧ t = mkHHmm hour [c, d] := by
  unfold normalizeTime at h
  split at h
  · next hour mc hm =>
    split_ifs at h with h23
    injection h with h
    obtain ⟨c, d, hcd, hc, hd, _⟩ := matchColon_shape _ _ _ hm
    subst hcd
    exact ⟨hour, c, d, by omega, hc, hd, h.symm⟩
  · split at h
    · next hour mc hm =>
      split_ifs at h with h23
      injection h with h
      obtain ⟨c, d, hcd, hc, hd, _⟩ := matchCompact_shape _ _ _ hm
      subst hcd
      exact ⟨hour, c, d, by omega, hc, hd, h.symm⟩
    · exact absurd h (by simp)

theorem normalizeTime_mkHHmm (hour : Nat) (c d : Char) (hh : hour ≤ 23)
    (hc : isC05 c = true) (hd : isDigitC d = true) :
    normalizeTime (mkHHmm hour [c, d]) = some (mkHHmm hour [c, d]) := by
  have hns : ∀ ch ∈ [digitChar48 (hour / 10), digitChar48 (hour % 10), ':', c, d],
      isWsChar ch = false := by
    intro ch hch
    simp only [List.mem_cons, List.not_mem_nil, or_false] at hch
    rcases hch with h' | h' | h' | h' | h'
    · subst h'; exact isWs_digitChar48 _ (by omega)
    · subst h'; exact isWs_digitChar48 _ (by omega)
    · subst h'; decide
    · subst h'
      simp only [isC05, Bool.and_eq_true, decide_eq_true_eq] at hc
      simp only [isWsChar]
      simp only [Bool.or_eq_false_iff, decide_eq_false_iff_not]
      omega
    · subst h'
      simp only [isDigitC, Bool.and_eq_true, decide_eq_true_eq] at hd
      simp only [isWsChar]
      simp only [Bool.or_eq_false_iff, decide_eq_false_iff_not]
      omega
  have htrim : jsTrimL (mkHHmm hour [c, d]).data =
      [digitChar48 (hour / 10), digitChar48 (hour % 10), ':', c, d] := by
    rw [mkHHmm_data]
    exact jsTrimL_eq_self _ hns
  have hC02 : isC02 (digitChar48 (hour / 10)) = true := by
    simp only [isC02, toNat_digitChar48 _ (by omega : hour / 10 ≤ 9),
      Bool.and_eq_true, decide_eq_true_eq]
    omega
  have hDig : isDigitC (digitChar48 (hour % 10)) = true :=
    isDigitC_digitChar48 _ (by omega)
  have hmc : matchColon [digitChar48 (hour / 10), digitChar48 (hour % 10), ':', c, d] =
      some (hour, [c, d]) := by
    show (if (':' = ':' && isC02 (digitChar48 (hour / 10)) && isDigitC (digitChar48 (hour % 10))
          && isC05 c && isDigitC d) = true then
        some (10 * digitVal (digitChar48 (hour / 10)) + digitVal (digitChar48 (hour % 10)), [c, d])
      else none) = some (hour, [c, d])
    rw [if_pos (by simp [hC02, hDig, hc, hd])]
    rw [digitVal_digitChar48 _ (by omega : hour / 10 ≤ 9),
      digitVal_digitChar48 _ (by omega : hour % 10 ≤ 9)]
    have : 10 * (hour / 10) + hour % 10 = hour := by omega
    rw [this]
  unfold normalizeTime
  rw [htrim, hmc]
  show (if hour > 23 then none else some (mkHHmm hour [c, d])) = some (mkHHmm hour [c, d])
  rw [if_neg (by omega)]

theorem normalizeTime_idem (s t : String) (h : normalizeTime s = some t) :
    normalizeTime t = some t := by
  obtain ⟨hour, c, d, hh, hc, hd, ht⟩ := normalizeTime_shape s t h
  subst ht
  exact normalizeTime_mkHHmm hour c d hh hc hd

/-! ## Facts about `slugify` -/
theorem isWs_toLowerChar (c : Char) : isWsChar (toLowerChar c) = isWsChar c := by
  unfold toLowerChar
  split
  · next hc =>
    have h1 : (Char.ofNat (c.toNat + 32)).toNat = c.toNat + 32 :=
      toNat_ofNat_small _ (by omega)
    simp only [isWsChar, h1]
    simp only [← Bool.decide_or, decide_eq_decide]
    omega
  · rfl

theorem jsTrimL_toLowerL (l : List Char) : jsTrimL (toLowerL l) = toLowerL (jsTrimL l) := by
  have hmap : ∀ m : List Char, (m.map toLowerChar).dropWhile isWsChar =
      (m.dropWhile isWsChar).map toLowerChar := by
    intro m
    induction m with
    | nil => rfl
    | cons a m ih =>
      simp only [List.map_cons, List.dropWhile_cons, isWs_toLowerChar]
      by_cases h : isWsChar a = true
      · simp [h, ih]
      · simp [h]
  unfold jsTrimL toLowerL
  simp only [hmap, ← List.map_reverse]

theorem slugify_eq_specSlugify (s : String) : slugify s = specSlugify s := by
  unfold slugify specSlugify
  rw [jsTrimL_toLowerL]

theorem any_isSlugKeep_collapseRuns (b : Bool) (l : List Char) :
    (collapseRuns b l).any isSlugKeep = l.any isSlugKeep := by
  induction l generalizing b with
  | nil => rfl
  | cons a l ih =>
    unfold collapseRuns
    by_cases h : isSlugKeep a = true
    · simp [h, ih]
    · by_cases hb : b = true
      · simp [h, hb, ih]
      · simp only [Bool.not_eq_true] at hb
        simp [h, hb, ih]
        simp [isSlugKeep]

theorem mem_collapseRuns (b : Bool) (l : List Char) (c : Char)
    (h : c ∈ collapseRuns b l) : isSlugKeep c = true ∨ c = '-' := by
  induction l generalizing b with
  | nil => exact absurd h (by simp [collapseRuns])
  | cons a l ih =>
    unfold collapseRuns at h
    by_cases ha : isSlugKeep a = true
    · rw [if_pos ha] at h
      rcases List.mem_cons.mp h with h' | h'
      · subst h'; exact Or.inl ha
      · exact ih _ h'
    · rw [if_neg ha] at h
      by_cases hb : b = true
      · rw [if_pos hb] at h
        exact ih _ h
      · simp only [Bool.not_eq_true] at hb
        rw [if_neg (by simp [hb])] at h
        rcases List.mem_cons.mp h with h' | h'
        · exact Or.inr h'
        · exact ih _ h'

theorem any_isSlugKeep_dropHyphens (l : List Char) :
    (l.dropWhile (fun c => c = '-')).any isSlugKeep = l.any isSlugKeep := by
  induction l with
  | nil => rfl
  | cons a l ih =>
    simp only [List.dropWhile_cons]
    by_cases h : a = '-'
    · subst h
      have hk : isSlugKeep '-' = false := by decide
      simp [hk, ih]
    · simp [h]

theorem any_isSlugKeep_trimHyphens (l : List Char) :
    (trimHyphens l).any isSlugKeep = l.any isSlugKeep := by
  unfold trimHyphens
  rw [List.any_reverse, any_isSlugKeep_dropHyphens, List.any_reverse,
    any_isSlugKeep_dropHyphens]

theorem dropWhile_nil_of_all (p : Char → Bool) (l : List Char)
    (h : ∀ c ∈ l, p c = true) : l.dropWhile p = [] := by
  induction l with
  | nil => rfl
  | cons a l ih =>
    simp only [List.dropWhile_cons, h a (by simp)]
    exact ih (fun c hc => h c (by simp [hc]))

theorem trimHyphens_nil_of_all_hyphen (l : List Char) (h : ∀ c ∈ l, c = '-') :
    trimHyphens l = [] := by
  unfold trimHyphens
  have h1 : l.dropWhile (fun c => c = '-') = [] :=
    dropWhile_nil_of_all _ _ (fun c hc => by simp [h c hc])
  rw [h1]
  rfl

/-- `slugify` produces the empty string exactly when the trimmed, lower-cased
input has no character in `[a-z0-9]`. -/
theorem slugify_eq_empty_iff (s : String) :
    slugify s = "" ↔ (toLowerL (jsTrimL s.data)).any isSlugKeep = false := by
  unfold slugify
  constructor
  · intro h
    have hl : trimHyphens (collapseRuns false (toLowerL (jsTrimL s.data))) = [] := by
      have := congrArg String.data h
      simpa using this
    have := any_isSlugKeep_trimHyphens (collapseRuns false (toLowerL (jsTrimL s.data)))
    rw [hl] at this
    simp only [List.any_nil] at this
    rw [← any_isSlugKeep_collapseRuns false, ← this]
  · intro h
    have hall : ∀ c ∈ collapseRuns false (toLowerL (jsTrimL s.data)), c = '-' := by
      intro c hc
      rcases mem_collapseRuns _ _ _ hc with h' | h'
      · exfalso
        have : (collapseRuns false (toLowerL (jsTrimL s.data))).any isSlugKeep = true :=
          List.any_eq_true.mpr ⟨c, hc, h'⟩
        rw [any_isSlugKeep_collapseRuns] at this
        rw [h] at this
        exact Bool.false_ne_true this
      · exact h'
    rw [trimHyphens_nil_of_all_hyphen _ hall]

theorem runSteps_snd_cons (tz : Int) (tm : Bool) (st : StepId) (rest : List StepId)
    (doc : EventDoc) :
    (runSteps tz tm (st :: rest) doc).2 =
      match runStep tz tm st doc with
      | .error e => .error e
      | .ok doc' => (runSteps tz tm rest doc').2 := by
  cases h : runStep tz tm st doc <;> simp [runSteps, h]

theorem runSteps_cons_ok_iff (tz : Int) (tm : Bool) (st : StepId) (rest : List StepId)
    (doc out : EventDoc) :
    (runSteps tz tm (st :: rest) doc).2 = .ok out ↔
      ∃ doc', runStep tz tm st doc = .ok doc' ∧ (runSteps tz tm rest doc').2 = .ok out := by
  rw [runSteps_snd_cons]
  cases h : runStep tz tm st doc <;> simp [h]

theorem runStep_req_ok_iff (tz : Int) (tm : Bool) (name : String) (doc doc' : EventDoc) :
    runStep tz tm (.req name) doc = .ok doc' ↔
      (jsTrimL (fieldGet doc name).data).length ≠ 0 ∧ doc' = doc := by
  show (if (jsTrimL (fieldGet doc name).data).length = 0 then
      Except.error (PreSaveErr.requiredField name) else Except.ok doc) = .ok doc' ↔ _
  split_ifs with h <;> simp [h, eq_comm]

theorem runStep_agenda_ok_iff (tz : Int) (tm : Bool) (doc doc' : EventDoc) :
    runStep tz tm .agenda doc = .ok doc' ↔ doc.agenda ≠ [] ∧ doc' = doc := by
  show (if doc.agenda.length = 0 then Except.error PreSaveErr.agendaEmpty
      else Except.ok doc) = .ok doc' ↔ _
  split_ifs with h <;> simp_all [List.length_eq_zero, eq_comm]

theorem runStep_tags_ok_iff (tz : Int) (tm : Bool) (doc doc' : EventDoc) :
    runStep tz tm .tags doc = .ok doc' ↔ doc.tags ≠ [] ∧ doc' = doc := by
  show (if doc.tags.length = 0 then Except.error PreSaveErr.tagsEmpty
      else Except.ok doc) = .ok doc' ↔ _
  split_ifs with h <;> simp_all [List.length_eq_zero, eq_comm]

theorem runStep_slug_ok_iff (tz : Int) (tm : Bool) (doc doc' : EventDoc) :
    runStep tz tm .slug doc = .ok doc' ↔
      doc' = { doc with
        slug := if tm || jsFalsy doc.slug then some (slugify doc.title) else doc.slug } := by
  show Except.ok (if tm || jsFalsy doc.slug then
      { doc with slug := some (slugify doc.title) } else doc) = .ok doc' ↔ _
  by_cases h : (tm || jsFalsy doc.slug) = true
  · simp [h, eq_comm]
  · simp only [Bool.not_eq_true] at h
    simp only [h, if_neg Bool.false_ne_true, Except.ok.injEq]
    exact eq_comm

theorem runStep_date_ok_iff (tz : Int) (tm : Bool) (doc doc' : EventDoc)
    (hne : doc.date ≠ "") :
    runStep tz tm .date doc = .ok doc' ↔
      ∃ d, normalizeDate tz doc.date = some d ∧ doc' = { doc with date := d } := by
  show (if doc.date ≠ "" then
      match normalizeDate tz doc.date with
      | none => Except.error PreSaveErr.invalidDate
      | some d => Except.ok { doc with date := d }
    else Except.ok doc) = .ok doc' ↔ _
  rw [if_pos hne]
  cases h : normalizeDate tz doc.date <;> simp [h, eq_comm]

theorem runStep_time_ok_iff (tz : Int) (tm : Bool) (doc doc' : EventDoc)
    (hne : doc.time ≠ "") :
    runStep tz tm .time doc = .ok doc' ↔
      ∃ t, normalizeTime doc.time = some t ∧ doc' = { doc with time := t } := by
  show (if doc.time ≠ "" then
      match normalizeTime doc.time with
      | none => Except.error PreSaveErr.invalidTime
      | some t => Except.ok { doc with time := t }
    else Except.ok doc) = .ok doc' ↔ _
  rw [if_pos hne]
  cases h : normalizeTime doc.time <;> simp [h, eq_comm]

theorem stepOrder_eq : stepOrder =
    [StepId.req "title", StepId.req "description", StepId.req "overview",
     StepId.req "image", StepId.req "venue", StepId.req "location",
     StepId.req "date", StepId.req "time", StepId.req "mode",
     StepId.req "audience", StepId.req "organizer", StepId.agenda,
     StepId.tags, StepId.slug, StepId.date, StepId.time] := rfl

theorem trimNe_imp_ne (s : String) (h : (jsTrimL s.data).length ≠ 0) : s ≠ "" := by
  intro he
  exact h (by rw [he]; rfl)

theorem preSave_ok_elim (tz : Int) (tm : Bool) (doc out : EventDoc)
    (h : preSave tz tm doc = .ok out) :
    ReqOk doc ∧ doc.agenda ≠ [] ∧ doc.tags ≠ [] ∧
      ∃ p t, jsParseDate doc.date = some p ∧ normalizeTime doc.time = some t ∧
        out = { doc with
          slug := if tm || jsFalsy doc.slug then some (slugify doc.title) else doc.slug,
          date := formatISO (utcShift tz p),
          time := t } := by
  unfold preSave runPreSave at h
  rw [stepOrder_eq] at h
  rw [runSteps_cons_ok_iff] at h
  obtain ⟨d1, hs1, h⟩ := h
  rw [runStep_req_ok_iff] at hs1
  obtain ⟨ht1, hd1⟩ := hs1
  rw [hd1] at h
  rw [runSteps_cons_ok_iff] at h
  obtain ⟨d2, hs2, h⟩ := h
  rw [runStep_req_ok_iff] at hs2
  obtain ⟨ht2, hd2⟩ := hs2
  rw [hd2] at h
  rw [runSteps_cons_ok_iff] at h
  obtain ⟨d3, hs3, h⟩ := h
  rw [runStep_req_ok_iff] at hs3
  obtain ⟨ht3, hd3⟩ := hs3
  rw [hd3] at h
  rw [runSteps_cons_ok_iff] at h
  obtain ⟨d4, hs4, h⟩ := h
  rw [runStep_req_ok_iff] at hs4
  obtain ⟨ht4, hd4⟩ := hs4
  rw [hd4] at h
  rw [runSteps_cons_ok_iff] at h
  obtain ⟨d5, hs5, h⟩ := h
  rw [runStep_req_ok_iff] at hs5
  obtain ⟨ht5, hd5⟩ := hs5
  rw [hd5] at h
  rw [runSteps_cons_ok_iff] at h
  obtain ⟨d6, hs6, h⟩ := h
  rw [runStep_req_ok_iff] at hs6
  obtain ⟨ht6, hd6⟩ := hs6
  rw [hd6] at h
  rw [runSteps_cons_ok_iff] at h
  obtain ⟨d7, hs7, h⟩ := h
  rw [runStep_req_ok_iff] at hs7
  obtain ⟨ht7, hd7⟩ := hs7
  rw [hd7] at h
  rw [runSteps_cons_ok_iff] at h
  obtain ⟨d8, hs8, h⟩ := h
  rw [runStep_req_ok_iff] at hs8
  obtain ⟨ht8, hd8⟩ := hs8
  rw [hd8] at h
  rw [runSteps_cons_ok_iff] at h
  obtain ⟨d9, hs9, h⟩ := h
  rw [runStep_req_ok_iff] at hs9
  obtain ⟨ht9, hd9⟩ := hs9
  rw [hd9] at h
  rw [runSteps_cons_ok_iff] at h
  obtain ⟨d10, hs10, h⟩ := h
  rw [runStep_req_ok_iff] at hs10
  obtain ⟨ht10, hd10⟩ := hs10
  rw [hd10] at h
  rw [runSteps_cons_ok_iff] at h
  obtain ⟨d11, hs11, h⟩ := h
  rw [runStep_req_ok_iff] at hs11
  obtain ⟨ht11, hd11⟩ := hs11
  rw [hd11] at h
  rw [runSteps_cons_ok_iff] at h
  obtain ⟨d12, hs12, h⟩ := h
  rw [runStep_agenda_ok_iff] at hs12
  obtain ⟨hag, hd12⟩ := hs12
  rw [hd12] at h
  rw [runSteps_cons_ok_iff] at h
  obtain ⟨d13, hs13, h⟩ := h
  rw [runStep_tags_ok_iff] at hs13
  obtain ⟨htg, hd13⟩ := hs13
  rw [hd13] at h
  rw [runSteps_cons_ok_iff] at h
  obtain ⟨d14, hs14, h⟩ := h
  rw [runStep_slug_ok_iff] at hs14
  rw [hs14] at h
  have hdne : doc.date ≠ "" := trimNe_imp_ne _ ht7
  rw [runSteps_cons_ok_iff] at h
  obtain ⟨d15, hs15, h⟩ := h
  rw [runStep_date_ok_iff tz tm
    { doc with slug := if tm || jsFalsy doc.slug then some (slugify doc.title) else doc.slug }
    d15 hdne] at hs15
  obtain ⟨dd, hnd, rfl⟩ := hs15
  have htne : doc.time ≠ "" := trimNe_imp_ne _ ht8
  rw [runSteps_cons_ok_iff] at h
  obtain ⟨d16, hs16, h⟩ := h
  rw [runStep_time_ok_iff tz tm
    { doc with
      slug := if tm || jsFalsy doc.slug then some (slugify doc.title) else doc.slug,
      date := dd }
    d16 htne] at hs16
  obtain ⟨tt, hnt, rfl⟩ := hs16
  simp only [runSteps, Except.ok.injEq] at h
  subst h
  unfold normalizeDate at hnd
  cases hj : jsParseDate doc.date with
  | none => rw [hj] at hnd; exact absurd hnd (by simp)
  | some p =>
    rw [hj, Option.map_some'] at hnd
    injection hnd with hnd
    subst hnd
    exact ⟨⟨ht1, ht2, ht3, ht4, ht5, ht6, ht7, ht8, ht9, ht10, ht11⟩, hag, htg,
      p, tt, rfl, hnt, rfl⟩

theorem preSave_ok_intro (tz : Int) (tm : Bool) (doc : EventDoc) (p : CivilDate × Bool)
    (t : String) (hreq : ReqOk doc) (hag : doc.agenda ≠ []) (htg : doc.tags ≠ [])
    (hp : jsParseDate doc.date = some p) (ht : normalizeTime doc.time = some t) :
    preSave tz tm doc = .ok { doc with
      slug := if tm || jsFalsy doc.slug then some (slugify doc.title) else doc.slug,
      date := formatISO (utcShift tz p),
      time := t } := by
  obtain ⟨h1, h2, h3, h4, h5, h6, h7, h8, h9, h10, h11⟩ := hreq
  unfold preSave runPreSave
  rw [stepOrder_eq]
  refine (runSteps_cons_ok_iff _ _ _ _ _ _).mpr
    ⟨doc, (runStep_req_ok_iff _ _ _ _ _).mpr ⟨h1, rfl⟩, ?_⟩
  refine (runSteps_cons_ok_iff _ _ _ _ _ _).mpr
    ⟨doc, (runStep_req_ok_iff _ _ _ _ _).mpr ⟨h2, rfl⟩, ?_⟩
  refine (runSteps_cons_ok_iff _ _ _ _ _ _).mpr
    ⟨doc, (runStep_req_ok_iff _ _ _ _ _).mpr ⟨h3, rfl⟩, ?_⟩
  refine (runSteps_cons_ok_iff _ _ _ _ _ _).mpr
    ⟨doc, (runStep_req_ok_iff _ _ _ _ _).mpr ⟨h4, rfl⟩, ?_⟩
  refine (runSteps_cons_ok_iff _ _ _ _ _ _).mpr
    ⟨doc, (runStep_req_ok_iff _ _ _ _ _).mpr ⟨h5, rfl⟩, ?_⟩
  refine (runSteps_cons_ok_iff _ _ _ _ _ _).mpr
    ⟨doc, (runStep_req_ok_iff _ _ _ _ _).mpr ⟨h6, rfl⟩, ?_⟩
  refine (runSteps_cons_ok_iff _ _ _ _ _ _).mpr
    ⟨doc, (runStep_req_ok_iff _ _ _ _ _).mpr ⟨h7, rfl⟩, ?_⟩
  refine (runSteps_cons_ok_iff _ _ _ _ _ _).mpr
    ⟨doc, (runStep_req_ok_iff _ _ _ _ _).mpr ⟨h8, rfl⟩, ?_⟩
  refine (runSteps_cons_ok_iff _ _ _ _ _ _).mpr
    ⟨doc, (runStep_req_ok_iff _ _ _ _ _).mpr ⟨h9, rfl⟩, ?_⟩
  refine (runSteps_cons_ok_iff _ _ _ _ _ _).mpr
    ⟨doc, (runStep_req_ok_iff _ _ _ _ _).mpr ⟨h10, rfl⟩, ?_⟩
  refine (runSteps_cons_ok_iff _ _ _ _ _ _).mpr
    ⟨doc, (runStep_req_ok_iff _ _ _ _ _).mpr ⟨h11, rfl⟩, ?_⟩
  refine (runSteps_cons_ok_iff _ _ _ _ _ _).mpr
    ⟨doc, (runStep_agenda_ok_iff _ _ _ _).mpr ⟨hag, rfl⟩, ?_⟩
  refine (runSteps_cons_ok_iff _ _ _ _ _ _).mpr
    ⟨doc, (runStep_tags_ok_iff _ _ _ _).mpr ⟨htg, rfl⟩, ?_⟩
  refine (runSteps_cons_ok_iff _ _ _ _ _ _).mpr
    ⟨_, (runStep_slug_ok_iff _ _ _ _).mpr rfl, ?_⟩
  refine (runSteps_cons_ok_iff _ _ _ _ _ _).mpr
    ⟨_, (runStep_date_ok_iff tz tm
        { doc with slug := if tm || jsFalsy doc.slug then some (slugify doc.title) else doc.slug }
        _ (trimNe_imp_ne _ h7)).mpr
      ⟨formatISO (utcShift tz p), ?_, rfl⟩, ?_⟩
  · show normalizeDate tz doc.date = some (formatISO (utcShift tz p))
    unfold normalizeDate
    rw [hp]
    rfl
  refine (runSteps_cons_ok_iff _ _ _ _ _ _).mpr
    ⟨_, (runStep_time_ok_iff tz tm
        { doc with
          slug := if tm || jsFalsy doc.slug then some (slugify doc.title) else doc.slug,
          date := formatISO (utcShift tz p) }
        _ (trimNe_imp_ne _ h8)).mpr ⟨t, ht, rfl⟩, ?_⟩
  simp [runSteps]

/-! ## Execution-order facts about the pipeline -/
theorem errStep_runStep (tz : Int) (tm : Bool) (st : StepId) (doc : EventDoc)
    (e : PreSaveErr) (h : runStep tz tm st doc = .error e) : errStep e = st := by
  cases st
  · next name =>
    rw [show runStep tz tm (.req name) doc =
        (if (jsTrimL (fieldGet doc name).data).length = 0 then
          Except.error (PreSaveErr.requiredField name) else Except.ok doc) from rfl] at h
    split_ifs at h
    injection h with h
    rw [← h]
    rfl
  · rw [show runStep tz tm .agenda doc =
        (if doc.agenda.length = 0 then Except.error PreSaveErr.agendaEmpty
          else Except.ok doc) from rfl] at h
    split_ifs at h
    injection h with h
    rw [← h]
    rfl
  · rw [show runStep tz tm .tags doc =
        (if doc.tags.length = 0 then Except.error PreSaveErr.tagsEmpty
          else Except.ok doc) from rfl] at h
    split_ifs at h
    injection h with h
    rw [← h]
    rfl
  · exact absurd h (by
      rw [show runStep tz tm .slug doc = Except.ok (if tm || jsFalsy doc.slug then
        { doc with slug := some (slugify doc.title) } else doc) from rfl]
      simp)
  · rw [show runStep tz tm .date doc =
        (if doc.date ≠ "" then
          match normalizeDate tz doc.date with
          | none => Except.error PreSaveErr.invalidDate
          | some d => Except.ok { doc with date := d }
        else Except.ok doc) from rfl] at h
    by_cases hne : doc.date ≠ ""
    · rw [if_pos hne] at h
      cases hnd : normalizeDate tz doc.date with
      | none =>
        rw [hnd] at h
        injection h with h
        rw [← h]
        rfl
      | some d =>
        rw [hnd] at h
        exact absurd h (by simp)
    · rw [if_neg hne] at h
      exact absurd h (by simp)
  · rw [show runStep tz tm .time doc =
        (if doc.time ≠ "" then
          match normalizeTime doc.time with
          | none => Except.error PreSaveErr.invalidTime
          | some t => Except.ok { doc with time := t }
        else Except.ok doc) from rfl] at h
    by_cases hne : doc.time ≠ ""
    · rw [if_pos hne] at h
      cases hnt : normalizeTime doc.time with
      | none =>
        rw [hnt] at h
        injection h with h
        rw [← h]
        rfl
      | some t =>
        rw [hnt] at h
        exact absurd h (by simp)
    · rw [if_neg hne] at h
      exact absurd h (by simp)

theorem runSteps_trace_take (tz : Int) (tm : Bool) (l : List StepId) (doc : EventDoc) :
    ∃ k, k ≤ l.length ∧ (runSteps tz tm l doc).1 = l.take k := by
  induction l generalizing doc with
  | nil => exact ⟨0, by simp [runSteps]⟩
  | cons st rest ih =>
    cases h : runStep tz tm st doc with
    | error e => exact ⟨1, by simp [runSteps, h]⟩
    | ok doc' =>
      obtain ⟨k, hk, htr⟩ := ih doc'
      exact ⟨k + 1, by simp [runSteps, h, htr, hk]⟩

theorem runSteps_ok_trace (tz : Int) (tm : Bool) (l : List StepId) (doc out : EventDoc)
    (h : (runSteps tz tm l doc).2 = .ok out) : (runSteps tz tm l doc).1 = l := by
  induction l generalizing doc with
  | nil => rfl
  | cons st rest ih =>
    cases hst : runStep tz tm st doc with
    | error e =>
      rw [runSteps_snd_cons, hst] at h
      exact absurd h (by simp)
    | ok doc' =>
      rw [runSteps_snd_cons, hst] at h
      simp [runSteps, hst, ih doc' h]

theorem runSteps_error_last (tz : Int) (tm : Bool) (l : List StepId) (doc : EventDoc)
    (e : PreSaveErr) (h : (runSteps tz tm l doc).2 = .error e) :
    (runSteps tz tm l doc).1.getLast? = some (errStep e) := by
  induction l generalizing doc with
  | nil => exact absurd h (by simp [runSteps])
  | cons st rest ih =>
    cases hst : runStep tz tm st doc with
    | error e' =>
      rw [runSteps_snd_cons, hst] at h
      injection h with h
      subst h
      simp [runSteps, hst, errStep_runStep tz tm st doc e' hst]
    | ok doc' =>
      rw [runSteps_snd_cons, hst] at h
      have htr := ih doc' h
      have h2 : (runSteps tz tm rest doc').1 ≠ [] := by
        intro hnil
        rw [hnil] at htr
        exact absurd htr (by simp)
      cases htr2 : (runSteps tz tm rest doc').1 with
      | nil => exact absurd htr2 h2
      | cons b tl =>
        simp only [runSteps, hst]
        rw [htr2, List.getLast?_cons_cons, ← htr2]
        exact htr

example : emailMatches "a@b.c" = true := by decide

example : emailMatches "a@bc" = false := by decide

example : emailMatches "a b@c.d" = false := by decide

example : emailMatches "a@b@c.d" = false := by decide

example : emailMatches "@b.c" = false := by decide

example : emailMatches "a@.c" = false := by decide

example : emailMatches "a@b." = false := by decide

example : bookingPreSave ⟨some 7, " A@B.co "⟩ (.ok true) = .ok ⟨some 7, "a@b.co"⟩ := by decide

example : bookingPreSave ⟨some 7, "a@b.co"⟩ (.ok false) = .error .refIntegrity := by decide

example : bookingPreSave ⟨some 7, "a@b.co"⟩ (.error "boom") =
    .error (.lookupFailed "boom") := by decide

example : bookingPreSave ⟨none, "a@b.co"⟩ (.ok true) = .error .missingEventId := by decide

example : bookingPreSave ⟨some 7, "nope"⟩ (.ok true) = .error .invalidEmail := by decide

theorem cacheInv_init (n : Nat) : CacheInv (initSys n) := by
  refine ⟨by simp [initSys], by simp [initSys], ?_, ?_, ?_, ?_, ?_, ?_⟩
  · intro a ha
    exact absurd ha (by simp [initSys])
  · intro _
    rfl
  · intro h hh
    exact absurd hh (by simp [initSys])
  · intro i a ha
    rw [show (initSys n).callers = List.replicate n .start from rfl] at ha
    rcases lt_or_ge i n with hi | hi
    · rw [List.getElem?_replicate, if_pos hi] at ha
      exact absurd ha (by simp)
    · rw [List.getElem?_replicate, if_neg (by omega)] at ha
      exact absurd ha (by simp)
  · intro i h hh
    rw [show (initSys n).callers = List.replicate n .start from rfl] at hh
    rcases lt_or_ge i n with hi | hi
    · rw [List.getElem?_replicate, if_pos hi] at hh
      exact absurd hh (by simp)
    · rw [List.getElem?_replicate, if_neg (by omega)] at hh
      exact absurd hh (by simp)
  · intro i hh
    rw [show (initSys n).callers = List.replicate n .start from rfl] at hh
    rcases lt_or_ge i n with hi | hi
    · rw [List.getElem?_replicate, if_pos hi] at hh
      exact absurd hh (by simp)
    · rw [List.getElem?_replicate, if_neg (by omega)] at hh
      exact absurd hh (by simp)

theorem getElem?_set' {α : Type} (l : List α) (i j : Nat) (x : α) :
    (l.set i x)[j]? = if i = j ∧ i < l.length then some x else l[j]? := by
  by_cases hij : i = j
  · subst hij
    by_cases hi : i < l.length
    · simp [List.getElem?_set_self, hi]
    · rw [if_neg (by omega)]
      rw [List.set_eq_of_length_le (by omega)]
  · rw [if_neg (by tauto), List.getElem?_set_ne hij]

theorem cacheInv_step (s s' : Sys) (hstep : SysStep s s') (hinv : CacheInv s) : CacheInv s' := by
  obtain ⟨h1, h2, h3, h4, h5, h6, h7, h8⟩ := hinv
  cases hstep with
  | callHit i h hpc hc =>
    refine ⟨h1, h2, h3, h4, h5, ?_, ?_, ?_⟩
    · intro j a ha
      simp only [getElem?_set'] at ha
      split_ifs at ha with hj
      · exact absurd ha (by simp)
      · exact h6 j a ha
    · intro j hh hj
      simp only [getElem?_set'] at hj
      split_ifs at hj with hcase
      · injection hj with hj
        injection hj with hj
        subst hj
        exact h5 _ hc
      · exact h7 j hh hj
    · intro j hj
      simp only [getElem?_set'] at hj
      split_ifs at hj with hcase
      · exact absurd hj (by simp)
      · exact h8 j hj
  | callJoin i a hpc hc hp =>
    refine ⟨h1, h2, h3, h4, h5, ?_, ?_, ?_⟩
    · intro j b hb
      simp only [getElem?_set'] at hb
      split_ifs at hb with hj
      · injection hb with hb
        injection hb with hb
        subst hb
        exact ⟨(h3 a hp).1, by rw [hp, (h3 a hp).1]⟩
      · exact h6 j b hb
    · intro j hh hj
      simp only [getElem?_set'] at hj
      split_ifs at hj with hcase
      · exact absurd hj (by simp)
      · exact h7 j hh hj
    · intro j hj
      simp only [getElem?_set'] at hj
      split_ifs at hj with hcase
      · exact absurd hj (by simp)
      · exact h8 j hj
  | callStart i hpc hc hp =>
    have hz : s.cache.nextAttempt = 0 := h4 hp
    have hlen : s.settled.length = 0 := by omega
    refine ⟨by simp [hz], by simp [hlen, hz], ?_, ?_, ?_, ?_, ?_, ?_⟩
    · intro a ha
      simp only at ha
      injection ha with ha
      subst ha
      exact ⟨hz, by simp [hz]⟩
    · intro hnone
      exact absurd hnone (by simp)
    · intro h hh
      exact absurd hh (by simp)
    · intro j b hb
      simp only [getElem?_set'] at hb
      split_ifs at hb with hj
      · injection hb with hb
        injection hb with hb
        subst hb
        exact ⟨hz, by simp [hz]⟩
      · obtain ⟨hb0, hbp⟩ := h6 j b hb
        exact absurd hbp (by rw [hp]; simp)
    · intro j hh hj
      simp only [getElem?_set'] at hj
      split_ifs at hj with hcase
      · exact absurd hj (by simp)
      · have := h7 j hh hj
        rw [List.getElem?_eq_none (by omega)] at this
        exact absurd this (by simp)
    · intro j hj
      simp only [getElem?_set'] at hj
      split_ifs at hj with hcase
      · exact absurd hj (by simp)
      · have := h8 j hj
        rw [List.getElem?_eq_none (by omega)] at this
        exact absurd this (by simp)
  | settle a r ha =>
    have hane : ∀ v, s.settled[0]? = some (some v) → a ≠ 0 := by
      intro v hv h0
      subst h0
      rw [ha] at hv
      injection hv with hv
      exact absurd hv (by simp)
    have hset0 : ∀ v, s.settled[0]? = some (some v) →
        (s.settled.set a (some r))[0]? = some (some v) := by
      intro v hv
      rw [List.getElem?_set_ne (fun he => hane v hv he)]
      exact hv
    refine ⟨h1, by simp [h2], h3, h4, ?_, h6, ?_, ?_⟩
    · intro h hh
      exact hset0 _ (h5 h hh)
    · intro j hh hj
      exact hset0 _ (h7 j hh hj)
    · intro j hj
      exact hset0 _ (h8 j hj)
  | resumeOk i a h hpc hs =>
    have ha0 : a = 0 := (h6 i a hpc).1
    subst ha0
    refine ⟨h1, h2, h3, h4, ?_, ?_, ?_, ?_⟩
    · intro h' hh'
      simp only at hh'
      injection hh' with hh'
      subst hh'
      exact hs
    · intro j b hb
      simp only [getElem?_set'] at hb
      split_ifs at hb with hj
      · exact absurd hb (by simp)
      · exact h6 j b hb
    · intro j hh hj
      simp only [getElem?_set'] at hj
      split_ifs at hj with hcase
      · injection hj with hj
        injection hj with hj
        subst hj
        exact hs
      · exact h7 j hh hj
    · intro j hj
      simp only [getElem?_set'] at hj
      split_ifs at hj with hcase
      · exact absurd hj (by simp)
      · exact h8 j hj
  | resumeErr i a hpc hs =>
    have ha0 : a = 0 := (h6 i a hpc).1
    subst ha0
    refine ⟨h1, h2, h3, h4, h5, ?_, ?_, ?_⟩
    · intro j b hb
      simp only [getElem?_set'] at hb
      split_ifs at hb with hj
      · exact absurd hb (by simp)
      · exact h6 j b hb
    · intro j hh hj
      simp only [getElem?_set'] at hj
      split_ifs at hj with hcase
      · exact absurd hj (by simp)
      · exact h7 j hh hj
    · intro j hj
      simp only [getElem?_set'] at hj
      split_ifs at hj with hcase
      · exact hs
      · exact h8 j hj

theorem reach_inv (n : Nat) (s : Sys) (h : Reach n s) : CacheInv s := by
  induction h with
  | refl => exact cacheInv_init n
  | tail _ hstep ih => exact cacheInv_step _ _ hstep ih

/-! ## Claims -/
/-- C10 (corrected): if `MONGODB_URI` is absent — or set to the empty
string, which the source's `if (!MONGODB_URI)` falsiness test also
rejects — the fatal configuration error is raised when the module is
evaluated (at import time, before any call to `connectToDatabase` is
possible), and it is not swallowed: module evaluation yields the error,
not a module state, so `connectToDatabase` never exists to be called;
with any non-empty value, module evaluation succeeds with the empty
cache.  The claim's placement of the failure "at the first call to
acquireConnection" is refuted by `c10_counterexample`. -/
theorem config_error_at_module_init :
    initModule none = Except.error configErrorMsg ∧
    initModule (some "") = Except.error configErrorMsg ∧
    (∀ u : String, u ≠ "" → initModule (some u) =
      Except.ok ⟨u, ⟨none, none, 0⟩⟩) := by
  refine ⟨rfl, by decide, fun u hu => ?_⟩
  simp only [initModule, if_neg hu]

/-- Witness for C10: a concrete non-empty connection string makes module
evaluation succeed, by the theorem. -/
theorem config_error_at_module_init_witness :
    initModule (some "mongodb://localhost/app") =
      Except.ok ⟨"mongodb://localhost/app", ⟨none, none, 0⟩⟩ :=
  config_error_at_module_init.2.2 "mongodb://localhost/app" (by decide)

/-- C10 counterexample: with `MONGODB_URI` unset, module evaluation
already fails — there is no module state in which a first call to
`connectToDatabase` could be made, so the error is not "raised at the
first call". -/
theorem c10_counterexample :
    initModule none = Except.error configErrorMsg ∧
    (initModule none).toOption = none := by
  exact ⟨rfl, rfl⟩

/-- C2 (confirmed): a Booking whose `eventId` does not identify an
existing Event (the existence check returns `false`) always fails and is
never persisted; when the earlier field checks pass, the failure is
exactly the referential-integrity error ("The referenced event does not
exist."); and an error thrown by the existence check itself is propagated
as a distinct `lookupFailed` error, never as `refIntegrity`. -/
theorem booking_referential_integrity (doc : BookingDoc) (res : Except String Bool) :
    (res = Except.ok false →
      bookingSave doc res = none ∧
      ((toLowerStr (jsTrim doc.email) ≠ "" ∧
          emailMatches (toLowerStr (jsTrim doc.email)) = true) →
        doc.eventId ≠ none →
        bookingPreSave doc res = Except.error BookingErr.refIntegrity)) ∧
    (∀ msg : String, res = Except.error msg →
      (toLowerStr (jsTrim doc.email) ≠ "" ∧
          emailMatches (toLowerStr (jsTrim doc.email)) = true) →
      doc.eventId ≠ none →
      bookingPreSave doc res = Except.error (BookingErr.lookupFailed msg) ∧
        BookingErr.lookupFailed msg ≠ BookingErr.refIntegrity) := by
  constructor
  · rintro rfl
    constructor
    · unfold bookingSave bookingPreSave
      split_ifs with hem
      · rfl
      · cases hid : doc.eventId <;> rfl
    · rintro ⟨hne, hm⟩ hid
      unfold bookingPreSave
      rw [if_neg (by simp [hne, hm])]
      cases hid2 : doc.eventId with
      | none => exact absurd hid2 hid
      | some v => rfl
  · rintro msg rfl ⟨hne, hm⟩ hid
    constructor
    · unfold bookingPreSave
      rw [if_neg (by simp [hne, hm])]
      cases hid2 : doc.eventId with
      | none => exact absurd hid2 hid
      | some v => rfl
    · simp

/-- Witness for C2 at a concrete input: `eventId = 7` (no such Event,
oracle says `false`), valid email; the booking is not persisted and the
error is the referential-integrity one. -/
theorem booking_referential_integrity_witness :
    bookingSave ⟨some 7, "a@b.co"⟩ (Except.ok false) = none ∧
    bookingPreSave ⟨some 7, "a@b.co"⟩ (Except.ok false) =
      Except.error BookingErr.refIntegrity := by
  have h := booking_referential_integrity ⟨some 7, "a@b.co"⟩ (Except.ok false)
  exact ⟨(h.1 rfl).1, (h.1 rfl).2 ⟨by decide, by decide⟩ (by decide)⟩

/-- C4 counterexample: the pipeline accepts `badTitleDoc` (title `"!!!"`
is non-empty after trimming, so every step passes), yet the derived slug
is the empty string. -/
theorem c4_counterexample :
    preSave 0 true badTitleDoc = Except.ok badTitleOut ∧
    badTitleOut.slug = some "" ∧ some "" ≠ (none : Option String) ∧
    slugify "!!!" = "" := by
  refine ⟨by decide, by decide, by decide, by decide⟩

/-- C4 (corrected): for every Event accepted by the pipeline (as a new
document, `isModified('title') = true`), the stored slug is
`slugify(title)`, and it is empty exactly when the trimmed, lower-cased
title contains no character in `[a-z0-9]` — so the slug is non-empty for
titles with at least one ASCII alphanumeric character, but an accepted
all-punctuation title (e.g. `"!!!"`) yields an empty slug. -/
theorem slug_empty_iff_no_alnum (tz : Int) (doc out : EventDoc)
    (h : preSave tz true doc = Except.ok out) :
    out.slug = some (slugify doc.title) ∧
      (out.slug = some "" ↔ (toLowerL (jsTrimL doc.title.data)).any isSlugKeep = false) := by
  obtain ⟨hreq, hag, htg, p, t, hp, ht, hout⟩ := preSave_ok_elim tz true doc out h
  subst hout
  have hsl : (if true || jsFalsy doc.slug then some (slugify doc.title) else doc.slug) =
      some (slugify doc.title) := by simp
  constructor
  · simp [hsl]
  · simp only [hsl]
    constructor
    · intro he
      injection he with he
      exact (slugify_eq_empty_iff doc.title).mp he
    · intro he
      rw [show slugify doc.title = "" from (slugify_eq_empty_iff doc.title).mpr he]

/-- Witness for C4's amended statement at the concrete all-punctuation
title. -/
theorem slug_empty_iff_no_alnum_witness :
    badTitleOut.slug = some (slugify badTitleDoc.title) ∧
      (badTitleOut.slug = some "" ↔
        (toLowerL (jsTrimL badTitleDoc.title.data)).any isSlugKeep = false) :=
  slug_empty_iff_no_alnum 0 badTitleDoc badTitleOut (by decide)

/-- C5 (corrected): the date step parses `date`, fails with the
invalid-date error exactly when the string is unparseable, and otherwise
rewrites it to the ISO `YYYY-MM-DD` form of the UTC calendar date of the
parsed instant.  The concrete example depends on the process timezone:
`"March 5, 2024"` is parsed as local midnight, so in zones at or west of
UTC (`tz ≤ 0`) the result is `"2024-03-05"`, but in zones east of UTC
(`tz > 0`) the UTC calendar date of that instant is the previous day,
`"2024-03-04"` — refuting the claim's unconditional `"2024-03-05"`
(`c5_counterexample`). -/
theorem date_normalization (tz : Int) (h1 : -1440 < tz) (h2 : tz < 1440) :
    (∀ s : String, normalizeDate tz s = none ↔ jsParseDate s = none) ∧
    (∀ s : String, ∀ p : CivilDate × Bool, jsParseDate s = some p →
      normalizeDate tz s = some (formatISO (utcShift tz p))) ∧
    (∀ tm : Bool, ∀ doc : EventDoc, doc.date ≠ "" → jsParseDate doc.date = none →
      runStep tz tm StepId.date doc = Except.error PreSaveErr.invalidDate) ∧
    (tz ≤ 0 → normalizeDate tz "March 5, 2024" = some "2024-03-05") ∧
    (0 < tz → normalizeDate tz "March 5, 2024" = some "2024-03-04") := by
  refine ⟨?_, ?_, ?_, ?_, ?_⟩
  · intro s
    unfold normalizeDate
    cases h : jsParseDate s <;> simp [h]
  · intro s p hp
    unfold normalizeDate
    rw [hp, Option.map_some']
  · intro tm doc hne hnone
    show (if doc.date ≠ "" then
        match normalizeDate tz doc.date with
        | none => Except.error PreSaveErr.invalidDate
        | some d => Except.ok { doc with date := d }
      else Except.ok doc) = Except.error PreSaveErr.invalidDate
    rw [if_pos hne, show normalizeDate tz doc.date = none from by
      unfold normalizeDate; rw [hnone]; rfl]
  · intro hle
    unfold normalizeDate
    rw [show jsParseDate "March 5, 2024" = some (⟨2024, 3, 5⟩, true) from by decide,
      Option.map_some']
    rw [show utcShift tz (⟨2024, 3, 5⟩, true) = ⟨2024, 3, 5⟩ from by
      unfold utcShift; rw [if_neg (by simp; omega)]]
    decide
  · intro hgt
    unfold normalizeDate
    rw [show jsParseDate "March 5, 2024" = some (⟨2024, 3, 5⟩, true) from by decide,
      Option.map_some']
    rw [show utcShift tz (⟨2024, 3, 5⟩, true) = prevDay ⟨2024, 3, 5⟩ from by
      unfold utcShift; rw [if_pos (by simp; omega)]]
    decide

/-- C5 counterexample: in a zone one hour east of UTC the code yields
`"2024-03-04"` for `"March 5, 2024"`, not the claimed `"2024-03-05"`. -/
theorem c5_counterexample :
    normalizeDate 60 "March 5, 2024" = some "2024-03-04" ∧
      ("2024-03-04" : String) ≠ "2024-03-05" := by
  refine ⟨by decide, by decide⟩

/-- Witness for C5's amended statement at `tz = 0` (UTC). -/
theorem date_normalization_witness :
    (∀ s : String, normalizeDate 0 s = none ↔ jsParseDate s = none) ∧
    (∀ s : String, ∀ p : CivilDate × Bool, jsParseDate s = some p →
      normalizeDate 0 s = some (formatISO (utcShift 0 p))) ∧
    (∀ tm : Bool, ∀ doc : EventDoc, doc.date ≠ "" → jsParseDate doc.date = none →
      runStep 0 tm StepId.date doc = Except.error PreSaveErr.invalidDate) ∧
    ((0 : Int) ≤ 0 → normalizeDate 0 "March 5, 2024" = some "2024-03-05") ∧
    ((0 : Int) < 0 → normalizeDate 0 "March 5, 2024" = some "2024-03-04") :=
  date_normalization 0 (by decide) (by decide)

/-- C9 (confirmed): every run of the Event pipeline executes a prefix of
the steps in source order (`stepOrder.take k`); on failure the write is
blocked (`saveEvent` persists nothing), the failing step is the last one
executed (later steps never run), and the error identifies that step
(`errStep` maps each error to the field/step it is attributed to); on
success every step ran. -/
theorem event_pipeline_ordering (tz : Int) (tm : Bool) (doc : EventDoc) :
    (∃ k, k ≤ stepOrder.length ∧ (runPreSave tz tm doc).1 = stepOrder.take k) ∧
    (∀ e : PreSaveErr, preSave tz tm doc = Except.error e →
      saveEvent tz tm doc = none ∧
      (runPreSave tz tm doc).1.getLast? = some (errStep e)) ∧
    (∀ out : EventDoc, preSave tz tm doc = Except.ok out →
      (runPreSave tz tm doc).1 = stepOrder) := by
  refine ⟨runSteps_trace_take tz tm stepOrder doc, ?_, ?_⟩
  · intro e he
    constructor
    · unfold saveEvent
      rw [he]
      rfl
    · exact runSteps_error_last tz tm stepOrder doc e he
  · intro out hout
    exact runSteps_ok_trace tz tm stepOrder doc out hout

/-- Witness for C9 at a concrete input whose time is invalid: the trace
is the full order, the failing (last) step is the time step, and nothing
is persisted. -/
theorem event_pipeline_ordering_witness :
    ((∃ k, k ≤ stepOrder.length ∧ (runPreSave 0 true badTimeDoc).1 = stepOrder.take k) ∧
    (∀ e : PreSaveErr, preSave 0 true badTimeDoc = Except.error e →
      saveEvent 0 true badTimeDoc = none ∧
      (runPreSave 0 true badTimeDoc).1.getLast? = some (errStep e)) ∧
    (∀ out : EventDoc, preSave 0 true badTimeDoc = Except.ok out →
      (runPreSave 0 true badTimeDoc).1 = stepOrder)) ∧
    preSave 0 true badTimeDoc = Except.error PreSaveErr.invalidTime ∧
    saveEvent 0 true badTimeDoc = none := by
  have h := event_pipeline_ordering 0 true badTimeDoc
  have he : preSave 0 true badTimeDoc = Except.error PreSaveErr.invalidTime := by decide
  exact ⟨h, he, (h.2.1 _ he).1⟩

/-- C1 (confirmed): in every reachable state of any number of concurrent
`connectToDatabase()` calls made before any connection exists, at most
one `mongoose.connect` attempt has ever been started; as soon as any
call has executed its first step, exactly one attempt has been started;
and any two calls that have returned hold the same connection handle. -/
theorem connect_single_attempt (n : Nat) (s : Sys) (h : Reach n s) :
    s.cache.nextAttempt ≤ 1 ∧
    (∀ i : Nat, ∀ pc : CallerPC, s.callers[i]? = some pc → pc ≠ CallerPC.start →
      s.cache.nextAttempt = 1) ∧
    (∀ i j h₁ h₂ : Nat, s.callers[i]? = some (CallerPC.done h₁) →
      s.callers[j]? = some (CallerPC.done h₂) → h₁ = h₂) := by
  obtain ⟨h1, h2, h3, h4, h5, h6, h7, h8⟩ := reach_inv n s h
  refine ⟨h1, ?_, ?_⟩
  · intro i pc hpc hne
    cases pc with
    | start => exact absurd rfl hne
    | awaiting a =>
      obtain ⟨_, hp⟩ := h6 i a hpc
      exact (h3 0 hp).2
    | done hdl =>
      have hs := h7 i hdl hpc
      obtain ⟨hlt, _⟩ := List.getElem?_eq_some.mp hs
      omega
    | failed =>
      have hs := h8 i hpc
      obtain ⟨hlt, _⟩ := List.getElem?_eq_some.mp hs
      omega
  · intro i j h₁ h₂ hi hj
    have e1 := h7 i h₁ hi
    have e2 := h7 j h₂ hj
    rw [e1] at e2
    simp only [Option.some.injEq, Except.ok.injEq] at e2
    exact e2

/-- A concrete interleaving of two concurrent calls reaching
`demoOkSys`: caller 0 starts the attempt, caller 1 joins it, the attempt
resolves with handle 7, both callers resume. -/
theorem reach_demoOkSys : Reach 2 demoOkSys := by
  exact Relation.ReflTransGen.tail (Relation.ReflTransGen.tail (Relation.ReflTransGen.tail
    (Relation.ReflTransGen.tail (Relation.ReflTransGen.single
      (SysStep.callStart _ 0 rfl rfl rfl))
      (SysStep.callJoin _ 1 0 rfl rfl rfl))
      (SysStep.settle _ 0 (Except.ok 7) rfl))
      (SysStep.resumeOk _ 0 0 7 rfl rfl))
      (SysStep.resumeOk _ 1 0 7 rfl rfl)

/-- Witness for C1 on the concrete two-caller run. -/
theorem connect_single_attempt_witness :
    demoOkSys.cache.nextAttempt ≤ 1 ∧
    (∀ i : Nat, ∀ pc : CallerPC, demoOkSys.callers[i]? = some pc →
      pc ≠ CallerPC.start → demoOkSys.cache.nextAttempt = 1) ∧
    (∀ i j h₁ h₂ : Nat, demoOkSys.callers[i]? = some (CallerPC.done h₁) →
      demoOkSys.callers[j]? = some (CallerPC.done h₂) → h₁ = h₂) :=
  connect_single_attempt 2 demoOkSys reach_demoOkSys

/-- A concrete run reaching `demoFailSys`: caller 0 starts the attempt,
it rejects, caller 0 fails; then caller 1 arrives, finds
`cached.promise` still set, awaits the same rejected promise and fails
without any new attempt being started. -/
theorem reach_demoFailSys : Reach 2 demoFailSys := by
  exact Relation.ReflTransGen.tail (Relation.ReflTransGen.tail (Relation.ReflTransGen.tail
    (Relation.ReflTransGen.tail (Relation.ReflTransGen.single
      (SysStep.callStart _ 0 rfl rfl rfl))
      (SysStep.settle _ 0 (Except.error ()) rfl))
      (SysStep.resumeErr _ 0 0 rfl rfl))
      (SysStep.callJoin _ 1 0 rfl rfl rfl))
      (SysStep.resumeErr _ 1 0 rfl rfl)

/-- C3 counterexample: after the connection attempt failed and the
failure propagated, the cache is *not* reset to the uninitialized state:
`cached.promise` still holds the rejected pending operation, and a
subsequent call does not start a fresh attempt — it awaits the same
rejected promise and fails (`nextAttempt` is still 1 after caller 1
completed). -/
theorem c3_counterexample :
    Reach 2 demoFailSys ∧
    demoFailSys.cache.promise = some 0 ∧
    demoFailSys.cache.promise ≠ none ∧
    demoFailSys.cache.nextAttempt = 1 ∧
    demoFailSys.callers = [CallerPC.failed, CallerPC.failed] := by
  exact ⟨reach_demoFailSys, rfl, by decide, rfl, rfl⟩

/-- C3 (corrected): if the single connection attempt fails, the failure
propagates to every caller awaiting it — once the attempt has rejected no
caller ever returns a handle and `cached.conn` is never set, and every
failed caller's failure is that attempt's rejection — but the cache does
*not* reset: no step ever clears `cached.promise`, and no fresh
connection attempt is ever started (`nextAttempt` stays ≤ 1), so
subsequent calls receive the same stored rejection instead of retrying. -/
theorem connect_failure_no_reset (n : Nat) (s : Sys) (h : Reach n s) :
    (s.settled[0]? = some (some (Except.error ())) →
      s.cache.conn = none ∧ ∀ i hdl : Nat, s.callers[i]? ≠ some (CallerPC.done hdl)) ∧
    (∀ i : Nat, s.callers[i]? = some CallerPC.failed →
      s.settled[0]? = some (some (Except.error ()))) ∧
    s.cache.nextAttempt ≤ 1 ∧
    (∀ s' : Sys, SysStep s s' → s.cache.promise ≠ none → s'.cache.promise ≠ none) := by
  obtain ⟨h1, h2, h3, h4, h5, h6, h7, h8⟩ := reach_inv n s h
  refine ⟨?_, h8, h1, ?_⟩
  · intro herr
    constructor
    · cases hc : s.cache.conn with
      | none => rfl
      | some hdl =>
        have := h5 hdl hc
        rw [herr] at this
        simp at this
    · intro i hdl hdone
      have := h7 i hdl hdone
      rw [herr] at this
      simp at this
  · intro s' hstep hne
    cases hstep with
    | callHit i hdl hpc hc => exact hne
    | callJoin i a hpc hc hp => exact hne
    | callStart i hpc hc hp => exact absurd hp hne
    | settle a r ha => exact hne
    | resumeOk i a hdl hpc hs => exact hne
    | resumeErr i a hpc hs => exact hne

/-- Witness for C3's amended statement on the concrete failed run. -/
theorem connect_failure_no_reset_witness :
    ((demoFailSys.settled[0]? = some (some (Except.error ())) →
      demoFailSys.cache.conn = none ∧
        ∀ i hdl : Nat, demoFailSys.callers[i]? ≠ some (CallerPC.done hdl)) ∧
    (∀ i : Nat, demoFailSys.callers[i]? = some CallerPC.failed →
      demoFailSys.settled[0]? = some (some (Except.error ()))) ∧
    demoFailSys.cache.nextAttempt ≤ 1 ∧
    (∀ s' : Sys, SysStep demoFailSys s' →
      demoFailSys.cache.promise ≠ none → s'.cache.promise ≠ none)) ∧
    demoFailSys.cache.conn = none ∧
    (∀ i hdl : Nat, demoFailSys.callers[i]? ≠ some (CallerPC.done hdl)) := by
  have h := connect_failure_no_reset 2 demoFailSys reach_demoFailSys
  exact ⟨h, h.1 rfl⟩

/-- C8 (confirmed): whenever the title is newly set/changed
(`isModified('title')`) or no slug is present, the persisted slug is
`slugify(title)`; `slugify` agrees with the spec's description
(lower-case, trim, collapse maximal non-`[a-z0-9]` runs to single
hyphens, trim hyphens — the spec's lower-case-then-trim order and the
source's trim-then-lower-case order coincide); and the concrete title
`"My Event! 2024"` derives the slug `"my-event-2024"`. -/
theorem slug_derivation (tz : Int) (tm : Bool) (doc out : EventDoc)
    (h : preSave tz tm doc = Except.ok out) (hcond : tm = true ∨ doc.slug = none) :
    out.slug = some (slugify doc.title) ∧
    (∀ s : String, slugify s = specSlugify s) ∧
    slugify "My Event! 2024" = "my-event-2024" := by
  obtain ⟨hreq, hag, htg, p, t, hp, ht, hout⟩ := preSave_ok_elim tz tm doc out h
  subst hout
  have hc : (tm || jsFalsy doc.slug) = true := by
    rcases hcond with h' | h'
    · simp [h']
    · simp [h', jsFalsy]
  refine ⟨by simp [hc], slugify_eq_specSlugify, by decide⟩

/-- Witness for C8 on the spec's concrete example. -/
theorem slug_derivation_witness :
    myEventOut.slug = some (slugify myEventDoc.title) ∧
    (∀ s : String, slugify s = specSlugify s) ∧
    slugify "My Event! 2024" = "my-event-2024" :=
  slug_derivation 0 true myEventDoc myEventOut (by decide) (Or.inl rfl)

theorem normalizeTime_some_trim_ne (s t : String) (h : normalizeTime s = some t) :
    (jsTrimL s.data).length ≠ 0 := by
  intro hlen
  rw [List.length_eq_zero] at hlen
  unfold normalizeTime at h
  rw [hlen] at h
  simp [matchColon, matchCompact] at h

/-- C7 (confirmed): re-running the pipeline on its own accepted output —
as Mongoose would on a re-save of the unchanged document, where
`isModified('title')` is `false` — succeeds and returns the output
unchanged, for any process timezone of either run: the normalized date
is an ISO string that re-parses (as UTC) to itself, the normalized time
re-normalizes to itself, the slug is stable, and every other field is
untouched. -/
theorem pipeline_idempotent (tz tz2 : Int) (tm : Bool) (doc out : EventDoc)
    (hb1 : -1440 < tz) (hb2 : tz < 1440) (hb3 : -1440 < tz2) (hb4 : tz2 < 1440)
    (h : preSave tz tm doc = Except.ok out) :
    preSave tz2 false out = Except.ok out := by
  obtain ⟨⟨q1, q2, q3, q4, q5, q6, q7, q8, q9, q10, q11⟩, hag, htg, p, t, hp, ht, hout⟩ :=
    preSave_ok_elim tz tm doc out h
  obtain ⟨hv, hy⟩ := jsParseDate_valid doc.date p hp
  have hv2 : ValidCivil (utcShift tz p) := utcShift_valid tz p hv hy
  have htrimd : jsTrimL (formatISO (utcShift tz p)).data = formatISOL (utcShift tz p) :=
    jsTrimL_eq_self _ (formatISOL_not_ws _ hv2)
  have hdlen : (jsTrimL (formatISO (utcShift tz p)).data).length ≠ 0 := by
    rw [htrimd, formatISOL_eq]
    simp
  have hti : normalizeTime t = some t := normalizeTime_idem doc.time t ht
  have htlen : (jsTrimL t.data).length ≠ 0 := normalizeTime_some_trim_ne t t hti
  have hp2 : jsParseDate (formatISO (utcShift tz p)) = some (utcShift tz p, false) :=
    jsParseDate_formatISO _ hv2
  subst hout
  have hintro := preSave_ok_intro tz2 false
    { doc with
      slug := if tm || jsFalsy doc.slug then some (slugify doc.title) else doc.slug,
      date := formatISO (utcShift tz p),
      time := t }
    (utcShift tz p, false) t
    ⟨q1, q2, q3, q4, q5, q6, hdlen, htlen, q9, q10, q11⟩ hag htg hp2 hti
  rw [hintro]
  congr 1
  simp only [EventDoc.mk.injEq, and_true, true_and]
  constructor
  · by_cases hcnd : (tm || jsFalsy doc.slug) = true
    · simp only [hcnd, if_true]
      split_ifs <;> rfl
    · simp only [Bool.not_eq_true] at hcnd
      have h2 : jsFalsy doc.slug = false := (Bool.or_eq_false_iff.mp hcnd).2
      have h3 : tm = false := (Bool.or_eq_false_iff.mp hcnd).1
      simp [h2, h3]
  · simp [utcShift]

/-- Witness for C7 on a concrete accepted Event. -/
theorem pipeline_idempotent_witness :
    preSave 0 false myEventOut = Except.ok myEventOut :=
  pipeline_idempotent 0 0 true myEventDoc myEventOut (by decide) (by decide)
    (by decide) (by decide) (by decide)

/-! ## `normalizeTime` agrees with the spec's description (C6) -/
theorem isC05_isDigitC (c : Char) (h : isC05 c = true) : isDigitC c = true := by
  simp only [isC05, Bool.and_eq_true, decide_eq_true_eq] at h
  simp only [isDigitC, Bool.and_eq_true, decide_eq_true_eq]
  omega

theorem isC02_isDigitC (c : Char) (h : isC02 c = true) : isDigitC c = true := by
  simp only [isC02, Bool.and_eq_true, decide_eq_true_eq] at h
  simp only [isDigitC, Bool.and_eq_true, decide_eq_true_eq]
  omega

theorem notDigit_notC05 (c : Char) (h : isDigitC c = false) : isC05 c = false := by
  cases hq : isC05 c with
  | false => rfl
  | true => rw [isC05_isDigitC c hq] at h; exact absurd h (by simp)

theorem notDigit_notC02 (c : Char) (h : isDigitC c = false) : isC02 c = false := by
  cases hq : isC02 c with
  | false => rfl
  | true => rw [isC02_isDigitC c hq] at h; exact absurd h (by simp)

theorem minute_le59 (c d : Char) (hc : isC05 c = true) (hd : isDigitC d = true) :
    10 * digitVal c + digitVal d ≤ 59 := by
  simp only [isC05, isDigitC, Bool.and_eq_true, decide_eq_true_eq] at hc hd
  simp only [digitVal]
  omega

theorem minute_ge60 (c d : Char) (hc : isDigitC c = true) (hc5 : isC05 c = false) :
    60 ≤ 10 * digitVal c + digitVal d := by
  simp only [isDigitC, Bool.and_eq_true, decide_eq_true_eq] at hc
  simp only [isC05, Bool.and_eq_true, decide_eq_false_iff_not, Bool.and_eq_false_iff,
    decide_eq_true_eq] at hc5
  simp only [digitVal]
  rcases hc5 with h | h
  · simp at h; omega
  · simp at h; omega

theorem hour1_le23 (a : Char) (h : isDigitC a = true) : digitVal a ≤ 23 := by
  simp only [isDigitC, Bool.and_eq_true, decide_eq_true_eq] at h
  simp only [digitVal]
  omega

theorem hour2_le29 (a b : Char) (ha : isC02 a = true) (hb : isDigitC b = true) :
    10 * digitVal a + digitVal b ≤ 29 := by
  simp only [isC02, isDigitC, Bool.and_eq_true, decide_eq_true_eq] at ha hb
  simp only [digitVal]
  omega

theorem hour2_ge30 (a b : Char) (ha : isDigitC a = true) (h2 : isC02 a = false) :
    30 ≤ 10 * digitVal a + digitVal b := by
  simp only [isDigitC, Bool.and_eq_true, decide_eq_true_eq] at ha
  simp only [isC02, Bool.and_eq_false_iff, decide_eq_false_iff_not] at h2
  simp only [digitVal]
  rcases h2 with h | h
  · simp at h; omega
  · simp at h; omega

theorem compactEq3 (a c d : Char) :
    (match matchCompact [a, c, d] with
     | some (hour, m) => if hour > 23 then none else some (mkHHmm hour m)
     | none => none) =
    (match specCompactShape [a, c, d] with
     | some (hour, minute, mc) =>
       if hour ≤ 23 && minute ≤ 59 then some (mkHHmm hour mc) else none
     | none => none) := by
  by_cases hA : isDigitC a = true
  · by_cases hD : isDigitC d = true
    · by_cases hCd : isDigitC c = true
      · by_cases hC : isC05 c = true
        · rw [show matchCompact [a, c, d] = some (digitVal a, [c, d]) from by
            simp [matchCompact, hA, hC, hD]]
          rw [show specCompactShape [a, c, d] =
              some (digitVal a, 10 * digitVal c + digitVal d, [c, d]) from by
            simp [specCompactShape, hA, hCd, hD]]
          show (if digitVal a > 23 then none else some (mkHHmm (digitVal a) [c, d])) =
            (if digitVal a ≤ 23 && 10 * digitVal c + digitVal d ≤ 59 then
              some (mkHHmm (digitVal a) [c, d]) else none)
          rw [if_neg (by have := hour1_le23 a hA; omega)]
          rw [if_pos (by
            simp only [Bool.and_eq_true, decide_eq_true_eq]
            exact ⟨hour1_le23 a hA, minute_le59 c d hC hD⟩)]
        · simp only [Bool.not_eq_true] at hC
          rw [show matchCompact [a, c, d] = none from by simp [matchCompact, hC]]
          rw [show specCompactShape [a, c, d] =
              some (digitVal a, 10 * digitVal c + digitVal d, [c, d]) from by
            simp [specCompactShape, hA, hCd, hD]]
          show (none : Option String) =
            (if digitVal a ≤ 23 && 10 * digitVal c + digitVal d ≤ 59 then
              some (mkHHmm (digitVal a) [c, d]) else none)
          rw [if_neg (by
            simp only [Bool.and_eq_true, decide_eq_true_eq]
            rintro ⟨-, hm⟩
            have := minute_ge60 c d hCd hC
            omega)]
      · simp only [Bool.not_eq_true] at hCd
        rw [show matchCompact [a, c, d] = none from by
          simp [matchCompact, notDigit_notC05 c hCd]]
        rw [show specCompactShape [a, c, d] = none from by simp [specCompactShape, hCd]]
    · simp only [Bool.not_eq_true] at hD
      rw [show matchCompact [a, c, d] = none from by simp [matchCompact, hD]]
      rw [show specCompactShape [a, c, d] = none from by simp [specCompactShape, hD]]
  · simp only [Bool.not_eq_true] at hA
    rw [show matchCompact [a, c, d] = none from by simp [matchCompact, hA]]
    rw [show specCompactShape [a, c, d] = none from by simp [specCompactShape, hA]]

theorem compactEq4 (a b c d : Char) :
    (match matchCompact [a, b, c, d] with
     | some (hour, m) => if hour > 23 then none else some (mkHHmm hour m)
     | none => none) =
    (match specCompactShape [a, b, c, d] with
     | some (hour, minute, mc) =>
       if hour ≤ 23 && minute ≤ 59 then some (mkHHmm hour mc) else none
     | none => none) := by
  by_cases hB : isDigitC b = true
  · by_cases hD : isDigitC d = true
    · by_cases hCd : isDigitC c = true
      · by_cases hA : isDigitC a = true
        · by_cases hC : isC05 c = true
          · by_cases hA2 : isC02 a = true
            · rw [show matchCompact [a, b, c, d] =
                  some (10 * digitVal a + digitVal b, [c, d]) from by
                simp [matchCompact, hA2, hB, hC, hD]]
              rw [show specCompactShape [a, b, c, d] =
                  some (10 * digitVal a + digitVal b,
                    10 * digitVal c + digitVal d, [c, d]) from by
                simp [specCompactShape, hA, hB, hCd, hD]]
              show (if 10 * digitVal a + digitVal b > 23 then none
                  else some (mkHHmm (10 * digitVal a + digitVal b) [c, d])) =
                (if 10 * digitVal a + digitVal b ≤ 23 &&
                    10 * digitVal c + digitVal d ≤ 59 then
                  some (mkHHmm (10 * digitVal a + digitVal b) [c, d]) else none)
              rcases Nat.lt_or_ge 23 (10 * digitVal a + digitVal b) with hgt | hle
              · rw [if_pos hgt, if_neg (by
                  simp only [Bool.and_eq_true, decide_eq_true_eq]
                  rintro ⟨h1, -⟩
                  omega)]
              · rw [if_neg (by omega), if_pos (by
                  simp only [Bool.and_eq_true, decide_eq_true_eq]
                  exact ⟨by omega, minute_le59 c d hC hD⟩)]
            · simp only [Bool.not_eq_true] at hA2
              rw [show matchCompact [a, b, c, d] = none from by
                simp [matchCompact, hA2]]
              rw [show specCompactShape [a, b, c, d] =
                  some (10 * digitVal a + digitVal b,
                    10 * digitVal c + digitVal d, [c, d]) from by
                simp [specCompactShape, hA, hB, hCd, hD]]
              show (none : Option String) =
                (if 10 * digitVal a + digitVal b ≤ 23 &&
                    10 * digitVal c + digitVal d ≤ 59 then
                  some (mkHHmm (10 * digitVal a + digitVal b) [c, d]) else none)
              rw [if_neg (by
                simp only [Bool.and_eq_true, decide_eq_true_eq]
                rintro ⟨h1, -⟩
                have := hour2_ge30 a b hA hA2
                omega)]
          · simp only [Bool.not_eq_true] at hC
            rw [show matchCompact [a, b, c, d] = none from by simp [matchCompact, hC]]
            rw [show specCompactShape [a, b, c, d] =
                some (10 * digitVal a + digitVal b,
                  10 * digitVal c + digitVal d, [c, d]) from by
              simp [specCompactShape, hA, hB, hCd, hD]]
            show (none : Option String) =
              (if 10 * digitVal a + digitVal b ≤ 23 &&
                  10 * digitVal c + digitVal d ≤ 59 then
                some (mkHHmm (10 * digitVal a + digitVal b) [c, d]) else none)
            rw [if_neg (by
              simp only [Bool.and_eq_true, decide_eq_true_eq]
              rintro ⟨-, hm⟩
              have := minute_ge60 c d hCd hC
              omega)]
        · simp only [Bool.not_eq_true] at hA
          rw [show matchCompact [a, b, c, d] = none from by
            simp [matchCompact, notDigit_notC02 a hA]]
          rw [show specCompactShape [a, b, c, d] = none from by
            simp [specCompactShape, hA]]
      · simp only [Bool.not_eq_true] at hCd
        rw [show matchCompact [a, b, c, d] = none from by
          simp [matchCompact, notDigit_notC05 c hCd]]
        rw [show specCompactShape [a, b, c, d] = none from by
          simp [specCompactShape, hCd]]
    · simp only [Bool.not_eq_true] at hD
      rw [show matchCompact [a, b, c, d] = none from by simp [matchCompact, hD]]
      rw [show specCompactShape [a, b, c, d] = none from by simp [specCompactShape, hD]]
  · simp only [Bool.not_eq_true] at hB
    rw [show matchCompact [a, b, c, d] = none from by simp [matchCompact, hB]]
    rw [show specCompactShape [a, b, c, d] = none from by simp [specCompactShape, hB]]

theorem timeEq_len4 (a b c d : Char) :
    (match matchColon [a, b, c, d] with
     | some (hour, m) => if hour > 23 then none else some (mkHHmm hour m)
     | none =>
       match matchCompact [a, b, c, d] with
       | some (hour, m) => if hour > 23 then none else some (mkHHmm hour m)
       | none => none) =
    (match specColonShape [a, b, c, d] with
     | some (hour, minute, mc) =>
       if hour ≤ 23 && minute ≤ 59 then some (mkHHmm hour mc) else none
     | none =>
       match specCompactShape [a, b, c, d] with
       | some (hour, minute, mc) =>
         if hour ≤ 23 && minute ≤ 59 then some (mkHHmm hour mc) else none
       | none => none) := by
  by_cases hB : b = ':'
  · subst hB
    have hBd : isDigitC ':' = false := by decide
    by_cases hA : isDigitC a = true
    · by_cases hD : isDigitC d = true
      · by_cases hCd : isDigitC c = true
        · by_cases hC : isC05 c = true
          · rw [show matchColon [a, ':', c, d] = some (digitVal a, [c, d]) from by
              simp [matchColon, hA, hC, hD]]
            rw [show specColonShape [a, ':', c, d] =
                some (digitVal a, 10 * digitVal c + digitVal d, [c, d]) from by
              simp [specColonShape, hA, hCd, hD]]
            show (if digitVal a > 23 then none else some (mkHHmm (digitVal a) [c, d])) =
              (if digitVal a ≤ 23 && 10 * digitVal c + digitVal d ≤ 59 then
                some (mkHHmm (digitVal a) [c, d]) else none)
            rw [if_neg (by have := hour1_le23 a hA; omega),
              if_pos (by
                simp only [Bool.and_eq_true, decide_eq_true_eq]
                exact ⟨hour1_le23 a hA, minute_le59 c d hC hD⟩)]
          · simp only [Bool.not_eq_true] at hC
            rw [show matchColon [a, ':', c, d] = none from by simp [matchColon, hC]]
            rw [show matchCompact [a, ':', c, d] = none from by
              simp [matchCompact, hBd]]
            rw [show specColonShape [a, ':', c, d] =
                some (digitVal a, 10 * digitVal c + digitVal d, [c, d]) from by
              simp [specColonShape, hA, hCd, hD]]
            show (none : Option String) =
              (if digitVal a ≤ 23 && 10 * digitVal c + digitVal d ≤ 59 then
                some (mkHHmm (digitVal a) [c, d]) else none)
            rw [if_neg (by
              simp only [Bool.and_eq_true, decide_eq_true_eq]
              rintro ⟨-, hm⟩
              have := minute_ge60 c d hCd hC
              omega)]
        · simp only [Bool.not_eq_true] at hCd
          rw [show matchColon [a, ':', c, d] = none from by
            simp [matchColon, notDigit_notC05 c hCd]]
          rw [show matchCompact [a, ':', c, d] = none from by simp [matchCompact, hBd]]
          rw [show specColonShape [a, ':', c, d] = none from by
            simp [specColonShape, hCd]]
          rw [show specCompactShape [a, ':', c, d] = none from by
            simp [specCompactShape, hBd]]
      · simp only [Bool.not_eq_true] at hD
        rw [show matchColon [a, ':', c, d] = none from by simp [matchColon, hD]]
        rw [show matchCompact [a, ':', c, d] = none from by simp [matchCompact, hBd]]
        rw [show specColonShape [a, ':', c, d] = none from by simp [specColonShape, hD]]
        rw [show specCompactShape [a, ':', c, d] = none from by
          simp [specCompactShape, hBd]]
    · simp only [Bool.not_eq_true] at hA
      rw [show matchColon [a, ':', c, d] = none from by simp [matchColon, hA]]
      rw [show matchCompact [a, ':', c, d] = none from by simp [matchCompact, hBd]]
      rw [show specColonShape [a, ':', c, d] = none from by simp [specColonShape, hA]]
      rw [show specCompactShape [a, ':', c, d] = none from by
        simp [specCompactShape, hBd]]
  · rw [show matchColon [a, b, c, d] = none from by simp [matchColon, hB]]
    rw [show specColonShape [a, b, c, d] = none from by simp [specColonShape, hB]]
    exact compactEq4 a b c d

theorem timeEq_len5 (a b e c d : Char) :
    (match matchColon [a, b, e, c, d] with
     | some (hour, m) => if hour > 23 then none else some (mkHHmm hour m)
     | none =>
       match matchCompact [a, b, e, c, d] with
       | some (hour, m) => if hour > 23 then none else some (mkHHmm hour m)
       | none => none) =
    (match specColonShape [a, b, e, c, d] with
     | some (hour, minute, mc) =>
       if hour ≤ 23 && minute ≤ 59 then some (mkHHmm hour mc) else none
     | none =>
       match specCompactShape [a, b, e, c, d] with
       | some (hour, minute, mc) =>
         if hour ≤ 23 && minute ≤ 59 then some (mkHHmm hour mc) else none
       | none => none) := by
  by_cases hE : e = ':'
  · subst hE
    by_cases hA : isDigitC a = true
    · by_cases hB : isDigitC b = true
      · by_cases hD : isDigitC d = true
        · by_cases hCd : isDigitC c = true
          · by_cases hC : isC05 c = true
            · by_cases hA2 : isC02 a = true
              · rw [show matchColon [a, b, ':', c, d] =
                    some (10 * digitVal a + digitVal b, [c, d]) from by
                  simp [matchColon, hA2, hB, hC, hD]]
                rw [show specColonShape [a, b, ':', c, d] =
                    some (10 * digitVal a + digitVal b,
                      10 * digitVal c + digitVal d, [c, d]) from by
                  simp [specColonShape, hA, hB, hCd, hD]]
                show (if 10 * digitVal a + digitVal b > 23 then none
                    else some (mkHHmm (10 * digitVal a + digitVal b) [c, d])) =
                  (if 10 * digitVal a + digitVal b ≤ 23 &&
                      10 * digitVal c + digitVal d ≤ 59 then
                    some (mkHHmm (10 * digitVal a + digitVal b) [c, d]) else none)
                rcases Nat.lt_or_ge 23 (10 * digitVal a + digitVal b) with hgt | hle
                · rw [if_pos hgt, if_neg (by
                    simp only [Bool.and_eq_true, decide_eq_true_eq]
                    rintro ⟨h1, -⟩
                    omega)]
                · rw [if_neg (by omega), if_pos (by
                    simp only [Bool.and_eq_true, decide_eq_true_eq]
                    exact ⟨by omega, minute_le59 c d hC hD⟩)]
              · simp only [Bool.not_eq_true] at hA2
                rw [show matchColon [a, b, ':', c, d] = none from by
                  simp [matchColon, hA2]]
                rw [show specColonShape [a, b, ':', c, d] =
                    some (10 * digitVal a + digitVal b,
                      10 * digitVal c + digitVal d, [c, d]) from by
                  simp [specColonShape, hA, hB, hCd, hD]]
                show (none : Option String) =
                  (if 10 * digitVal a + digitVal b ≤ 23 &&
                      10 * digitVal c + digitVal d ≤ 59 then
                    some (mkHHmm (10 * digitVal a + digitVal b) [c, d]) else none)
                rw [if_neg (by
                  simp only [Bool.and_eq_true, decide_eq_true_eq]
                  rintro ⟨h1, -⟩
                  have := hour2_ge30 a b hA hA2
                  omega)]
            · simp only [Bool.not_eq_true] at hC
              rw [show matchColon [a, b, ':', c, d] = none from by
                simp [matchColon, hC]]
              rw [show specColonShape [a, b, ':', c, d] =
                  some (10 * digitVal a + digitVal b,
                    10 * digitVal c + digitVal d, [c, d]) from by
                simp [specColonShape, hA, hB, hCd, hD]]
              show (none : Option String) =
                (if 10 * digitVal a + digitVal b ≤ 23 &&
                    10 * digitVal c + digitVal d ≤ 59 then
                  some (mkHHmm (10 * digitVal a + digitVal b) [c, d]) else none)
              rw [if_neg (by
                simp only [Bool.and_eq_true, decide_eq_true_eq]
                rintro ⟨-, hm⟩
                have := minute_ge60 c d hCd hC
                omega)]
          · simp only [Bool.not_eq_true] at hCd
            rw [show matchColon [a, b, ':', c, d] = none from by
              simp [matchColon, notDigit_notC05 c hCd]]
            rw [show specColonShape [a, b, ':', c, d] = none from by
              simp [specColonShape, hCd]]
            rfl
        · simp only [Bool.not_eq_true] at hD
          rw [show matchColon [a, b, ':', c, d] = none from by simp [matchColon, hD]]
          rw [show specColonShape [a, b, ':', c, d] = none from by
            simp [specColonShape, hD]]
          rfl
      · simp only [Bool.not_eq_true] at hB
        rw [show matchColon [a, b, ':', c, d] = none from by simp [matchColon, hB]]
        rw [show specColonShape [a, b, ':', c, d] = none from by
          simp [specColonShape, hB]]
        rfl
    · simp only [Bool.not_eq_true] at hA
      rw [show matchColon [a, b, ':', c, d] = none from by
        simp [matchColon, notDigit_notC02 a hA]]
      rw [show specColonShape [a, b, ':', c, d] = none from by
        simp [specColonShape, hA]]
      rfl
  · rw [show matchColon [a, b, e, c, d] = none from by simp [matchColon, hE]]
    rw [show specColonShape [a, b, e, c, d] = none from by simp [specColonShape, hE]]
    rfl

theorem timeEq_aux (l : List Char) :
    (match matchColon l with
     | some (hour, m) => if hour > 23 then none else some (mkHHmm hour m)
     | none =>
       match matchCompact l with
       | some (hour, m) => if hour > 23 then none else some (mkHHmm hour m)
       | none => none) =
    (match specColonShape l with
     | some (hour, minute, mc) =>
       if hour ≤ 23 && minute ≤ 59 then some (mkHHmm hour mc) else none
     | none =>
       match specCompactShape l with
       | some (hour, minute, mc) =>
         if hour ≤ 23 && minute ≤ 59 then some (mkHHmm hour mc) else none
       | none => none) := by
  match l with
  | [] => rfl
  | [a] => rfl
  | [a, b] => rfl
  | [a, c, d] => exact compactEq3 a c d
  | [a, b, c, d] => exact timeEq_len4 a b c d
  | [a, b, e, c, d] => exact timeEq_len5 a b e c d
  | _ :: _ :: _ :: _ :: _ :: _ :: _ => rfl

/-- C6 (confirmed): `normalizeTime` implements exactly the spec's
description — try the colon-separated `H:mm`/`HH:mm` pattern, then the
compact `Hmm`/`HHmm` pattern, accept a match only when hour ∈ [0,23] and
minute ∈ [0,59], fail when neither applies, and rewrite to
two-digit-hour `HH:mm` — and on the concrete examples `"930"` normalizes
to `"09:30"` while `"25:00"` fails. -/
theorem time_normalization :
    (∀ s : String, normalizeTime s = specTimeNormalize s) ∧
    normalizeTime "930" = some "09:30" ∧ normalizeTime "25:00" = none := by
  refine ⟨fun s => timeEq_aux (jsTrimL s.data), by decide, by decide⟩
